import Mathlib

/-!
Shallow embedding of the obsidian-audo-metadata plugin core
(src/metadata-generator.ts, the TemplateManager and AIService classes, and
src/defaults.ts) in Lean 4, together with theorems settling the frozen claims.

JavaScript strings are modelled as Lean `String` / `List Char` (code points;
all the data the code manipulates is BMP text, where JS UTF-16 lengths and
code-point lengths agree).  JS numbers are modelled as `Nat` for counters and
`ℚ` for the floating-point average (the code only forms the exact expression
`(oldAvg * (n-1) + sample) / n`, whose structure is what the claims are
about).  Wall-clock values (`new Date()`, `Date.now()`) are passed in as
explicit parameters.  Fallible code returns `Except`/`Option`.
-/

namespace AutoMeta

/-! ### JS string primitives -/

/-- JS `\s` (WhiteSpace ∪ LineTerminator): space, tab, LF, VT, FF, CR, NBSP,
U+1680, U+2000–U+200A, U+2028, U+2029, U+202F, U+205F, U+3000, U+FEFF. -/
def jsIsSpace (c : Char) : Bool :=
  c = ' ' || c.toNat = 9 || c.toNat = 10 || c.toNat = 11 || c.toNat = 12 ||
  c.toNat = 13 || c.toNat = 0xa0 || c.toNat = 0x1680 ||
  (0x2000 ≤ c.toNat && c.toNat ≤ 0x200a) || c.toNat = 0x2028 ||
  c.toNat = 0x2029 || c.toNat = 0x202f || c.toNat = 0x205f ||
  c.toNat = 0x3000 || c.toNat = 0xfeff

/-- JS `\w`: `[A-Za-z0-9_]`. -/
def isWordChar (c : Char) : Bool :=
  ('a' ≤ c && c ≤ 'z') || ('A' ≤ c && c ≤ 'Z') || ('0' ≤ c && c ≤ '9') || c = '_'

/-- Drop matching characters from the end of a list. -/
def dropTrailWhile (p : Char → Bool) (l : List Char) : List Char :=
  (l.reverse.dropWhile p).reverse

/-- JS `String.prototype.trim` on a character list. -/
def trimChars (l : List Char) : List Char :=
  dropTrailWhile jsIsSpace (l.dropWhile jsIsSpace)

/-- JS `String.prototype.trim`. -/
def jsTrim (s : String) : String := ⟨trimChars s.data⟩

/-- JS `split('\n')`: every `'\n'` separates; empty pieces are kept. -/
def splitNl : List Char → List (List Char)
  | [] => [[]]
  | c :: rest =>
    if c = '\n' then [] :: splitNl rest
    else
      match splitNl rest with
      | [] => [[c]]
      | h :: t => (c :: h) :: t

/-- JS `Array.prototype.join('\n')`. -/
def joinNl (ls : List (List Char)) : List Char :=
  List.intercalate ['\n'] ls

/-- Index of the first occurrence of `pat` in a list (JS `indexOf` on the
suffix), scanning left to right. -/
def findSub (pat : List Char) : List Char → Option Nat
  | [] => if pat.isEmpty then some 0 else none
  | c :: rest =>
    if pat.isPrefixOf (c :: rest) then some 0
    else (findSub pat rest).map (· + 1)

/-- JS `s.indexOf(pat, start)` (as `Option` instead of `-1`). -/
def jsIndexOfFrom (s pat : String) (start : Nat) : Option Nat :=
  (findSub pat.data (s.data.drop start)).map (· + start)

/-- JS `s.substring(a, b)`: clamps to the string bounds and swaps the
arguments when `a > b`. -/
def jsSubstring (s : String) (a b : Nat) : String :=
  ⟨(s.data.take (max a b)).drop (min a b)⟩

/-- JS `s.substring(a)`. -/
def jsSubstringFrom (s : String) (a : Nat) : String := ⟨s.data.drop a⟩

/-- JS `s.startsWith(pat)`. -/
def jsStartsWith (s pat : String) : Bool := pat.data.isPrefixOf s.data

/-- Core of `replaceAll`, structurally recursive on `fuel`; every step
advances at least one character, so `l.length + 1` fuel always suffices and
the out-of-fuel branch is never reached from the wrapper. -/
def replaceAllGo (pat repl : List Char) : Nat → List Char → List Char
  | 0, l => l
  | _ + 1, [] => []
  | fuel + 1, c :: rest =>
    if pat ≠ [] ∧ pat.isPrefixOf (c :: rest) then
      repl ++ replaceAllGo pat repl fuel ((c :: rest).drop pat.length)
    else
      c :: replaceAllGo pat repl fuel rest

/-- JS global literal replacement `s.replace(/pat/g, repl)` for a literal
pattern: leftmost occurrence first, resuming after each replacement. -/
def replaceAll (pat repl l : List Char) : List Char :=
  replaceAllGo pat repl (l.length + 1) l

/-- JS truthiness of an optional string (`undefined` and `""` are falsy). -/
def jsTruthyStr : Option String → Bool
  | none => false
  | some s => s ≠ ""

/-- JS truthiness of an optional number (`undefined` and `0` are falsy). -/
def jsTruthyNat : Option Nat → Bool
  | none => false
  | some n => n ≠ 0

/-- JS `a || b` for an optional string left operand. -/
def jsOrStr (a : Option String) (b : String) : String :=
  match a with
  | none => b
  | some s => if s = "" then b else s

/-! ### Data model (src/types.ts via UI_DESIGN.md / imports) -/

/-- `UsageStats` record.  `Date` fields are modelled as `Nat` timestamps; the
floating-point `averageProcessingTime` as `ℚ`. -/
structure UsageStats where
  totalRequests : Nat
  successfulRequests : Nat
  failedRequests : Nat
  totalTokensUsed : Nat
  averageProcessingTime : ℚ
  lastResetDate : Nat
  lastUsed : Nat
deriving DecidableEq, Repr

/-- `MetadataTemplate` record (`createdAt`/`updatedAt` as `Nat` timestamps). -/
structure MetadataTemplate where
  id : String
  name : String
  description : String
  yamlStructure : String
  aiPrompt : String
  isBuiltIn : Bool
  createdAt : Nat
  updatedAt : Nat
deriving DecidableEq, Repr

/-- `MetadataGenerationRequest` record. -/
structure MetadataGenerationRequest where
  documentContent : String
  fileName : String
  template : MetadataTemplate
  existingMetadata : Option String := none
deriving DecidableEq, Repr

/-- `MetadataGenerationResponse` record. -/
structure MetadataGenerationResponse where
  success : Bool
  metadata : Option String := none
  error : Option String := none
  tokensUsed : Option Nat := none
  processingTime : Option Nat := none
deriving DecidableEq, Repr

/-! ### MetadataGenerator: usage statistics (src/metadata-generator.ts) -/

/-- The stats record built by the `MetadataGenerator` constructor and by
`resetUsageStats` (both assign the same all-zero record with fresh dates). -/
def initialUsageStats (now : Nat) : UsageStats :=
  { totalRequests := 0, successfulRequests := 0, failedRequests := 0,
    totalTokensUsed := 0, averageProcessingTime := 0,
    lastResetDate := now, lastUsed := now }

/-- `updateUsageStats` (src/metadata-generator.ts lines 305–324): increments
`totalRequests`, one of the success/failure counters, adds `tokensUsed` when
truthy, and recomputes the running average with the already-incremented
total. -/
def updateUsageStats (s : UsageStats) (r : MetadataGenerationResponse)
    (t : ℚ) (now : Nat) : UsageStats :=
  let total := s.totalRequests + 1
  { s with
    totalRequests := total
    successfulRequests :=
      if r.success then s.successfulRequests + 1 else s.successfulRequests
    failedRequests :=
      if r.success then s.failedRequests else s.failedRequests + 1
    totalTokensUsed :=
      if jsTruthyNat r.tokensUsed then s.totalTokensUsed + r.tokensUsed.getD 0
      else s.totalTokensUsed
    averageProcessingTime :=
      (s.averageProcessingTime * ((total : ℚ) - 1) + t) / (total : ℚ)
    lastUsed := now }

/-- Effect of one `generateWithTemplate` call (lines 69–116) on the usage
statistics: when the AI response is successful with truthy metadata,
`updateUsageStats` runs (line 101); otherwise the method throws and the
`catch` block only increments `failedRequests` (line 113).  (Preview/insert
side effects are external-collaborator I/O and carry no stats updates.) -/
def generateWithTemplateStats (s : UsageStats)
    (r : MetadataGenerationResponse) (elapsed : ℚ) (now : Nat) : UsageStats :=
  if r.success && jsTruthyStr r.metadata then
    updateUsageStats s r elapsed now
  else
    { s with failedRequests := s.failedRequests + 1 }

/-! ### MetadataGenerator: front matter handling -/

/-- The key of a `key: value` front-matter line: the trimmed text before the
first `':'`, provided that colon is at a positive index (`colonIndex > 0`). -/
def lineKey (line : List Char) : Option (List Char) :=
  match findSub [':'] line with
  | some i => if 0 < i then some (trimChars (line.take i)) else none
  | none => none

/-- `mergeMetadata` (lines 186–219): first loop pushes every non-blank new
line while collecting its key into `processedKeys`; second loop appends each
non-blank existing line whose key is absent from `processedKeys` (lines
without a key are appended unconditionally). -/
def mergeMetadata (existing newMetadata : String) : String :=
  let existingLines := (splitNl existing.data).filter (fun l => trimChars l ≠ [])
  let newLines := (splitNl newMetadata.data).filter (fun l => trimChars l ≠ [])
  let step1 := newLines.foldl
    (fun (acc : List (List Char) × List (List Char)) line =>
      match lineKey line with
      | some k => (acc.1 ++ [line], acc.2 ++ [k])
      | none => (acc.1 ++ [line], acc.2))
    ([], [])
  let result := existingLines.foldl
    (fun acc line =>
      match lineKey line with
      | some k => if k ∈ step1.2 then acc else acc ++ [line]
      | none => acc ++ [line])
    step1.1
  ⟨joinNl result⟩

/-- `insertMetadata` (lines 157–184), as a pure document transformation
(`vault.read`/`vault.modify` are the external document storage). -/
def insertMetadata (content metadata : String) (replaceExisting : Bool) :
    String :=
  if jsStartsWith content "---" then
    match jsIndexOfFrom content "---" 3 with
    | some endIndex =>
      if replaceExisting then
        "---\n" ++ metadata ++ "\n---\n" ++ jsSubstringFrom content (endIndex + 4)
      else
        let existingMetadata := jsSubstring content 4 endIndex
        "---\n" ++ mergeMetadata existingMetadata metadata ++ "\n---\n" ++
          jsSubstringFrom content (endIndex + 4)
    | none => "---\n" ++ metadata ++ "\n---\n\n" ++ content
  else
    "---\n" ++ metadata ++ "\n---\n\n" ++ content

/-- `extractDocumentContent` (lines 221–229). -/
def extractDocumentContent (content : String) : String :=
  if jsStartsWith content "---" then
    match jsIndexOfFrom content "---" 3 with
    | some endIndex => jsTrim (jsSubstringFrom content (endIndex + 4))
    | none => jsTrim content
  else
    jsTrim content

/-- `extractExistingMetadata` (lines 231–242), on the document text. -/
def extractExistingMetadata (content : String) : Option String :=
  if jsStartsWith content "---" then
    match jsIndexOfFrom content "---" 3 with
    | some endIndex => some (jsTrim (jsSubstring content 4 endIndex))
    | none => none
  else
    none

/-! ### AIService: language detection (src/unnamed/part_000, `detectLanguage`) -/

/-- Han characters, `[一-鿿]`. -/
def isHan (c : Char) : Bool := 0x4e00 ≤ c.toNat && c.toNat ≤ 0x9fff

/-- Kana, `[぀-ゟ゠-ヿ]`. -/
def isKana (c : Char) : Bool :=
  (0x3040 ≤ c.toNat && c.toNat ≤ 0x309f) || (0x30a0 ≤ c.toNat && c.toNat ≤ 0x30ff)

/-- Hangul syllables, `[가-힯]`. -/
def isHangul (c : Char) : Bool := 0xac00 ≤ c.toNat && c.toNat ≤ 0xd7af

/-- Cyrillic, `[Ѐ-ӿ]`. -/
def isCyr (c : Char) : Bool := 0x400 ≤ c.toNat && c.toNat ≤ 0x4ff

/-- JS `toLowerCase` restricted to the character ranges observable through
the classes `detectLanguage` and `formatSingleTag` use (ASCII, Latin-1,
Latin Extended-A, Cyrillic); all other characters are left unchanged.  The
one one-to-many case, `İ` (U+0130) → `"i̇"`, is modelled as `i` alone:
U+0307 belongs to none of the kept character classes, so the two agree after
any of the filters applied downstream. -/
def jsToLowerChar (c : Char) : Char :=
  let n := c.toNat
  if 0x41 ≤ n && n ≤ 0x5a then Char.ofNat (n + 0x20)
  else if 0xc0 ≤ n && n ≤ 0xde && n ≠ 0xd7 then Char.ofNat (n + 0x20)
  else if n = 0x130 then 'i'
  else if 0x100 ≤ n && n ≤ 0x137 && n % 2 = 0 then Char.ofNat (n + 1)
  else if 0x139 ≤ n && n ≤ 0x148 && n % 2 = 1 then Char.ofNat (n + 1)
  else if 0x14a ≤ n && n ≤ 0x177 && n % 2 = 0 then Char.ofNat (n + 1)
  else if n = 0x178 then Char.ofNat 0xff
  else if 0x179 ≤ n && n ≤ 0x17e && n % 2 = 1 then Char.ofNat (n + 1)
  else if 0x410 ≤ n && n ≤ 0x42f then Char.ofNat (n + 0x20)
  else if 0x400 ≤ n && n ≤ 0x40f then Char.ofNat (n + 0x50)
  else c

/-- Character whitelist of the normalization regex
`[^\w\s一-鿿぀-ゟ゠-ヿĀ-ſÀ-ÿ]`
(everything outside it is deleted). -/
def normalizeKeep (c : Char) : Bool :=
  isWordChar c || jsIsSpace c || isHan c || isKana c ||
  (0x100 ≤ c.toNat && c.toNat ≤ 0x17f) || (0xc0 ≤ c.toNat && c.toNat ≤ 0xff)

/-- `content.toLowerCase().replace(/[^\w\s…]/g, '')` — the normalized text
`detectLanguage` scores.  JS string length and code-point length agree here
because every non-BMP code unit is outside the whitelist. -/
def normalizeText (content : String) : List Char :=
  (content.data.map jsToLowerChar).filter normalizeKeep

/-- Wordness of an optional character (start/end of string count as
non-word for `\b`). -/
def isWordOpt : Option Char → Bool
  | none => false
  | some c => isWordChar c

/-- A `\b` word boundary holds between two (optional) characters when
exactly one of them is a word character. -/
def boundaryOk (a b : Option Char) : Bool := isWordOpt a != isWordOpt b

/-- Does `\b<w>\b` match at the head of `text`, with `prev` the character
before it? -/
def tryWord (w text : List Char) (prev : Option Char) : Bool :=
  w ≠ [] && w.isPrefixOf text && boundaryOk prev w.head? &&
    boundaryOk w.getLast? ((text.drop w.length).head?)

/-- Number of matches of the global regex `\b<w>\b` in `text` (leftmost,
non-overlapping, resuming after each match). -/
def countWordMatches (w : List Char) : List Char → Option Char → Nat
  | [], _ => 0
  | c :: rest, prev =>
    if h : tryWord w (c :: rest) prev then
      1 + countWordMatches w ((c :: rest).drop w.length) w.getLast?
    else
      countWordMatches w rest (some c)
termination_by t _ => t.length
decreasing_by
  · have hp : 0 < w.length := by
      have : w ≠ [] := by
        by_contra hw
        simp [tryWord, hw] at h
      exact List.length_pos.mpr this
    simp only [List.length_drop, List.length_cons]
    omega
  · simp only [List.length_cons]
    omega

/-- One attempt of the English bigram pattern `\b<w>\s+\w+` at the head of
`text`: on success, returns the remaining text and the last consumed
character. -/
def patMatchRest (w text : List Char) (prev : Option Char) :
    Option (List Char × Option Char) :=
  if w ≠ [] && w.isPrefixOf text && boundaryOk prev w.head? then
    let after := text.drop w.length
    let sp := after.takeWhile jsIsSpace
    let r1 := after.dropWhile jsIsSpace
    if sp ≠ [] then
      let wd := r1.takeWhile isWordChar
      let r2 := r1.dropWhile isWordChar
      if wd ≠ [] then some (r2, wd.getLast?) else none
    else none
  else none

theorem patMatchRest_length_lt (w text : List Char) (prev : Option Char)
    (r : List Char) (lc : Option Char)
    (h : patMatchRest w text prev = some (r, lc)) : r.length < text.length := by
  unfold patMatchRest at h
  split at h
  · next hw =>
    simp only at h
    split at h
    · next hsp =>
      split at h
      · next hwd =>
        injection h with h1
        injection h1 with h2 h3
        subst h2
        have e1 : ((text.drop w.length).dropWhile jsIsSpace).takeWhile isWordChar ++
            ((text.drop w.length).dropWhile jsIsSpace).dropWhile isWordChar =
            (text.drop w.length).dropWhile jsIsSpace :=
          List.takeWhile_append_dropWhile isWordChar ((text.drop w.length).dropWhile jsIsSpace)
        have e2 : (text.drop w.length).takeWhile jsIsSpace ++
            (text.drop w.length).dropWhile jsIsSpace = text.drop w.length :=
          List.takeWhile_append_dropWhile jsIsSpace (text.drop w.length)
        have l1 := congrArg List.length e1
        have l2 := congrArg List.length e2
        simp only [List.length_append] at l1 l2
        have hwd' : 0 < (((text.drop w.length).dropWhile jsIsSpace).takeWhile isWordChar).length :=
          List.length_pos.mpr hwd
        have hsp' : 0 < ((text.drop w.length).takeWhile jsIsSpace).length :=
          List.length_pos.mpr hsp
        have hd : (text.drop w.length).length = text.length - w.length :=
          List.length_drop w.length text
        have hwlen : 0 < w.length := by
          have : w ≠ [] := by
            by_contra hww
            simp [hww] at hw
          exact List.length_pos.mpr this
        have hwle : w.length ≤ text.length := by
          have hpre : w.isPrefixOf text = true := by
            simp only [Bool.and_eq_true] at hw
            exact hw.1.2
          exact (List.isPrefixOf_iff_prefix.mp hpre).length_le
        omega
      · exact absurd h (by simp)
    · exact absurd h (by simp)
  · exact absurd h (by simp)

/-- Number of matches of the global regex `\b<w>\s+\w+` in `text`. -/
def countPat (w : List Char) : List Char → Option Char → Nat
  | [], _ => 0
  | c :: rest, prev =>
    match h : patMatchRest w (c :: rest) prev with
    | some (r, lc) => 1 + countPat w r lc
    | none => countPat w rest (some c)
termination_by t _ => t.length
decreasing_by
  · exact patMatchRest_length_lt _ _ _ _ _ h
  · simp only [List.length_cons]
    omega

/-- The `commonWords` stopword table, in `Object.entries` order. -/
def commonWords : List (String × List String) :=
  [("en", ["the", "and", "or", "but", "in", "on", "at", "to", "for", "of",
           "with", "by", "this", "that", "is", "are", "was", "were", "have", "has"]),
   ("zh", ["的", "了", "和", "是", "在", "有", "不", "这", "我", "你", "他", "她"]),
   ("ja", ["です", "である", "として", "について", "から", "まで", "では", "より"]),
   ("ko", ["이다", "있다", "없다", "하다", "되다", "같다", "많다", "좋다"]),
   ("fr", ["le", "la", "les", "de", "des", "du", "et", "un", "une", "il",
           "elle", "être", "avoir", "que", "pour", "avec", "sur", "dans"]),
   ("de", ["der", "die", "das", "und", "in", "den", "von", "zu", "mit",
           "sich", "auf", "ist", "sind", "war", "waren", "haben", "hat"]),
   ("es", ["el", "la", "los", "las", "de", "del", "que", "y", "a", "en",
           "un", "una", "ser", "estar", "se", "no", "te", "con", "por"]),
   ("it", ["il", "la", "lo", "gli", "le", "di", "del", "della", "che", "e",
           "ed", "un", "una", "per", "non", "in", "si", "con", "essere", "avere"]),
   ("ru", ["и", "в", "не", "на", "я", "быть", "он", "с", "как", "что", "это", "вы"])]

/-- The five double-weighted English bigram pattern stems
(`\bthe\s+\w+` … `\bto\s+\w+`). -/
def englishPatternStems : List String := ["the", "and", "of", "in", "to"]

/-- Per-language stopword score, with the English bigram bonus
(`score += patternScore * 2` when `lang === 'en'` and `score > 0`). -/
def langScore (text : List Char) (lang : String) (words : List String) : Nat :=
  let base := (words.map (fun w => countWordMatches w.data text none)).sum
  if lang = "en" && base > 0 then
    base + 2 * (englishPatternStems.map (fun w => countPat w.data text none)).sum
  else base

/-- Accented characters counted by the low-score fallback. -/
def frenchAccentChars : List Char := "àâäçéèêëïîôöùûüÿ".data

def germanAccentChars : List Char := "äöüß".data

def spanishAccentChars : List Char := "ñáéíóúü".data

def italianAccentChars : List Char := "àèéìíîòóù".data

/-- The consonants of `[bcdfglmnpqrstvz]{2}`. -/
def italianConsonants : List Char := "bcdfglmnpqrstvz".data

/-- Number of matches of the global regex `[bcdfglmnpqrstvz]{2}`
(non-overlapping pairs). -/
def countDoubleConsonants : List Char → Nat
  | [] => 0
  | [_] => 0
  | a :: b :: rest =>
    if italianConsonants.contains a && italianConsonants.contains b then
      1 + countDoubleConsonants rest
    else
      countDoubleConsonants (b :: rest)

/-- `detectLanguage` (src/unnamed/part_000 lines 415–488).  A ratio test
`count / total > θ` on JS floats is modelled exactly as the rational
comparison `count * (1/θ denominator) > total`; with `total = 0` the JS
side is `NaN > θ = false` and the model is `0 > 0 = false`. -/
def detectLanguage (content : String) : String :=
  let text := normalizeText content
  let totalChars := text.length
  let chineseChars := (text.filter isHan).length
  let japaneseChars := (text.filter isKana).length
  let koreanChars := (text.filter isHangul).length
  let russianChars := (text.filter isCyr).length
  if 10 * chineseChars > totalChars then "zh"
  else if 20 * japaneseChars > totalChars then "ja"
  else if 20 * koreanChars > totalChars then "ko"
  else if 10 * russianChars > totalChars then "ru"
  else
    let best := commonWords.foldl
      (fun (acc : Nat × String) lw =>
        let score := langScore text lw.1 lw.2
        if score > acc.1 then (score, lw.1) else acc)
      (0, "en")
    if best.1 < 3 then
      let frenchChars := (text.filter (fun c => frenchAccentChars.contains c)).length
      let germanChars := (text.filter (fun c => germanAccentChars.contains c)).length
      let spanishChars := (text.filter (fun c => spanishAccentChars.contains c)).length
      let italianChars := (text.filter (fun c => italianAccentChars.contains c)).length
      let italianDoubles := countDoubleConsonants text
      if 20 * frenchChars > totalChars then "fr"
      else if 25 * germanChars > totalChars then "de"
      else if 25 * spanishChars > totalChars then "es"
      else if 20 * italianChars > totalChars || 50 * italianDoubles > totalChars then "it"
      else best.2
    else best.2

/-! ### AIService: tag/title normalization -/

/-- Core of `replaceRuns`, structurally recursive on `fuel` (each step
consumes at least one character, so `l.length + 1` fuel always suffices). -/
def replaceRunsGo (p : Char → Bool) (r : Char) : Nat → List Char → List Char
  | 0, l => l
  | _ + 1, [] => []
  | fuel + 1, c :: rest =>
    if p c then r :: replaceRunsGo p r fuel (rest.dropWhile p)
    else c :: replaceRunsGo p r fuel rest

/-- Replace every maximal nonempty run of characters satisfying `p` with the
single character `r` (JS `replace(/[class]+/g, r)`). -/
def replaceRuns (p : Char → Bool) (r : Char) (l : List Char) : List Char :=
  replaceRunsGo p r (l.length + 1) l

/-- JS `replace(/^-|-$/g, '')`: removes one hyphen at the very start and one
at the very end. -/
def stripEdgeHyphens (l : List Char) : List Char :=
  let l1 := if l.head? = some '-' then l.tail else l
  if l1.getLast? = some '-' then l1.dropLast else l1

/-- Characters kept by the CJK branch
(`[^\w一-鿿぀-ゟ゠-ヿ가-힯]` deleted). -/
def keepCJKWord (c : Char) : Bool :=
  isWordChar c || isHan c || isKana c || isHangul c

/-- `formatSingleTag` (src/unnamed/part_000 lines 752–777). -/
def formatSingleTag (tagValue : String) : String :=
  if tagValue = "" || jsTrim tagValue = "" then ""
  else
    let t := (jsTrim tagValue).data
    if t.any isHan then
      ⟨(t.filter (fun c => !(jsIsSpace c || c = '_'))).filter keepCJKWord⟩
    else
      ⟨stripEdgeHyphens (replaceRuns (fun c => c = '-') '-'
        ((replaceRuns (fun c => jsIsSpace c || c = '_') '-'
          (t.map jsToLowerChar)).map
            (fun c => if isWordChar c || c = '-' then c else '-')))⟩

/-! ### AIService: metadata formatter (`validateAndFormatMetadata`,
`formatTagsForObsidian`, `formatTitleForObsidian`).

Each JS regex `replace` is hand-compiled to a left-to-right scanner with the
exact greedy/lazy semantics of the pattern; the compilation is noted at each
definition. -/

/-- Strip `pre` once when it is a prefix (anchored non-global
`replace(/^pre/, '')`). -/
def stripLeadIf (pre l : List Char) : List Char :=
  if pre.isPrefixOf l then l.drop pre.length else l

/-- Strip `suf` once when it is a suffix (anchored non-global
`replace(/suf$/, '')`). -/
def stripTrailIf (suf l : List Char) : List Char :=
  if suf.isSuffixOf l then l.take (l.length - suf.length) else l

/-- `"` or `'` — the `["']` class. -/
def isQuote (c : Char) : Bool := c = '"' || c = '\x27'

/-- Not a quote and not a newline — the `[^"'\n]` class. -/
def notQuoteNl (c : Char) : Bool := !isQuote c && c ≠ '\n'

/-- One attempt of `["']([^"'\n]*?)["']` at an opening quote: the lazy body
runs to the nearest quote with no intervening newline. -/
def scanQuoted (rest : List Char) : Option (List Char × Char × List Char) :=
  let val := rest.takeWhile notQuoteNl
  let r := rest.dropWhile notQuoteNl
  match r with
  | c :: r2 => if isQuote c then some (val, c, r2) else none
  | [] => none

theorem scanQuoted_length_lt (rest val : List Char) (q : Char)
    (after : List Char) (h : scanQuoted rest = some (val, q, after)) :
    after.length < rest.length := by
  unfold scanQuoted at h
  simp only [] at h
  split at h
  · next c r2 heq =>
    split at h
    · injection h with h1
      have ha : r2 = after := congrArg (fun p => p.2.2) h1
      have e := congrArg List.length
        (List.takeWhile_append_dropWhile notQuoteNl rest)
      rw [heq] at e
      simp only [List.length_append, List.length_cons] at e
      subst ha
      omega
    · exact absurd h (by simp)
  · exact absurd h (by simp)

/-- Inner replacement of `formatTagsForObsidian`'s first pass:
`content.replace(/["']([^"'\n]*?)["']/g, …)`, rewriting each quoted value
through `formatSingleTag` (keeping the original match when the formatted
tag is empty). -/
def fmtQuotedValsGo : Nat → List Char → List Char
  | 0, l => l
  | _ + 1, [] => []
  | fuel + 1, c :: rest =>
    if isQuote c then
      match scanQuoted rest with
      | some (val, closeQ, after) =>
        let f := formatSingleTag ⟨val⟩
        if f ≠ "" then '"' :: (f.data ++ '"' :: fmtQuotedValsGo fuel after)
        else c :: (val ++ closeQ :: fmtQuotedValsGo fuel after)
      | none => c :: fmtQuotedValsGo fuel rest
    else c :: fmtQuotedValsGo fuel rest

def fmtQuotedVals (l : List Char) : List Char := fmtQuotedValsGo (l.length + 1) l

/-- One attempt of `tags:\s*\[([\s\S]*?)\]` at the head of `l`: literal
`tags:`, greedy whitespace, `[`, then the lazy body up to the first `]`.
Returns the array body and the text after the `]`. -/
def matchInlineTags (l : List Char) : Option (List Char × List Char) :=
  if ("tags:".data).isPrefixOf l then
    let rest := l.drop 5
    let r1 := rest.dropWhile jsIsSpace
    match r1 with
    | '[' :: r2 =>
      match findSub [']'] r2 with
      | some j => some (r2.take j, r2.drop (j + 1))
      | none => none
    | _ => none
  else none

theorem matchInlineTags_length_lt (l content after : List Char)
    (h : matchInlineTags l = some (content, after)) :
    after.length < l.length := by
  unfold matchInlineTags at h
  simp only [] at h
  split at h
  · next hpre =>
    split at h
    · next c r2 heq =>
      split at h
      · next j hj =>
        injection h with h1
        have ha : after = r2.drop (j + 1) := (congrArg Prod.snd h1).symm
        have e := congrArg List.length
          (List.takeWhile_append_dropWhile jsIsSpace (l.drop 5))
        rw [heq] at e
        simp only [List.length_append, List.length_cons, List.length_drop] at e
        have h5 : 5 ≤ l.length := by
          have := (List.isPrefixOf_iff_prefix.mp hpre).length_le
          simpa using this
        have hlen : after.length = r2.length - (j + 1) := by
          rw [ha]; exact List.length_drop _ _
        omega
      · exact absurd h (by simp)
    · exact absurd h (by simp)
  · exact absurd h (by simp)

/-- First pass of `formatTagsForObsidian`:
`replace(/tags:\s*\[([\s\S]*?)\]/gm, 'tags: [' + rewritten + ']')`. -/
def fmtInlineTagsGo : Nat → List Char → List Char
  | 0, l => l
  | _ + 1, [] => []
  | fuel + 1, c :: rest =>
    match matchInlineTags (c :: rest) with
    | some (content, after) =>
      ("tags: [".data) ++ (fmtQuotedVals content ++ ']' :: fmtInlineTagsGo fuel after)
    | none => c :: fmtInlineTagsGo fuel rest

def fmtInlineTags (l : List Char) : List Char := fmtInlineTagsGo (l.length + 1) l

/-- The suffix of a whitespace run after its last `'\n'` (what the greedy
`\s*` hands back so that the required `\n` of `tags:\s*\n` matches as late
as possible). -/
def afterLastNl (l : List Char) : List Char :=
  (l.reverse.takeWhile (fun c => c ≠ '\n')).reverse

/-- One iteration of the group `(\s*-\s*[^\n]*\n?)` at the head of `l`:
greedy whitespace, `-`, greedy whitespace (which may span newlines), the
rest of the line, an optional newline.  Returns the consumed text and the
rest. -/
def itemTry (l : List Char) : Option (List Char × List Char) :=
  let ws1 := l.takeWhile jsIsSpace
  let r1 := l.dropWhile jsIsSpace
  if r1.head? = some '-' then
    let r2 := r1.tail
    let ws2 := r2.takeWhile jsIsSpace
    let r3 := r2.dropWhile jsIsSpace
    let line := r3.takeWhile (fun c => c ≠ '\n')
    let r4 := r3.dropWhile (fun c => c ≠ '\n')
    if r4.head? = some '\n' then
      some (ws1 ++ '-' :: (ws2 ++ line ++ ['\n']), r4.tail)
    else
      some (ws1 ++ '-' :: (ws2 ++ line), r4)
  else none

theorem itemTry_length_lt (l consumed rest : List Char)
    (h : itemTry l = some (consumed, rest)) : rest.length < l.length := by
  unfold itemTry at h
  simp only [] at h
  have e1 := congrArg List.length (List.takeWhile_append_dropWhile jsIsSpace l)
  simp only [List.length_append] at e1
  have e2 := congrArg List.length
    (List.takeWhile_append_dropWhile jsIsSpace (l.dropWhile jsIsSpace).tail)
  simp only [List.length_append] at e2
  have e3 := congrArg List.length
    (List.takeWhile_append_dropWhile (fun c => c ≠ '\n')
      (((l.dropWhile jsIsSpace).tail).dropWhile jsIsSpace))
  simp only [List.length_append] at e3
  split at h
  · next hd =>
    have hr1 : (l.dropWhile jsIsSpace) ≠ [] := by
      intro he
      rw [he] at hd
      simp at hd
    have htl : (l.dropWhile jsIsSpace).tail.length + 1 = (l.dropWhile jsIsSpace).length := by
      rw [List.length_tail]
      have := List.length_pos.mpr hr1
      omega
    split at h
    · next hd2 =>
      set r4 := (((l.dropWhile jsIsSpace).tail).dropWhile jsIsSpace).dropWhile
        (fun c => c ≠ '\n') with hr4def
      have hr4 : r4 ≠ [] := by
        intro he
        rw [he] at hd2
        simp at hd2
      have htl4 : r4.tail.length + 1 = r4.length := by
        rw [List.length_tail]
        have := List.length_pos.mpr hr4
        omega
      simp only [Option.some.injEq, Prod.mk.injEq] at h
      obtain ⟨-, hrest⟩ := h
      subst hrest
      omega
    · simp only [Option.some.injEq, Prod.mk.injEq] at h
      obtain ⟨-, hrest⟩ := h
      subst hrest
      omega
  · exact absurd h (by simp)

/-- Iterate `(\s*-\s*[^\n]*\n?)*` (fuel-structural; each iteration
consumes at least the `-`, so `l.length + 1` fuel suffices): the
concatenation of the consumed iterations and the text after the last one. -/
def blockItemsGo : Nat → List Char → List Char × List Char
  | 0, l => ([], l)
  | fuel + 1, l =>
    match itemTry l with
    | some (consumed, rest) =>
      let p := blockItemsGo fuel rest
      (consumed ++ p.1, p.2)
    | none => ([], l)

def blockItems (l : List Char) : List Char × List Char :=
  blockItemsGo (l.length + 1) l

theorem blockItemsGo_length_le (fuel : Nat) (l : List Char) :
    (blockItemsGo fuel l).2.length ≤ l.length := by
  induction fuel generalizing l with
  | zero => simp [blockItemsGo]
  | succ n ih =>
    rw [blockItemsGo]
    rcases h : itemTry l with - | ⟨consumed, rest⟩
    · simp
    · have hlt := itemTry_length_lt _ _ _ h
      have hr := ih rest
      simp only
      omega

theorem blockItems_length_le (l : List Char) :
    (blockItems l).2.length ≤ l.length :=
  blockItemsGo_length_le (l.length + 1) l

/-- One attempt of the whole block-list pattern `tags:\s*\n(\s*-\s*[^\n]*\n?)*`
at the head of `l`.  The greedy `\s*` backtracks to the last `'\n'` of the
whitespace run after `tags:` (no match if the run has none); the run's tail
past that `'\n'` is re-consumed by the first group iteration.  Returns the
matched text and the rest. -/
def matchBlockTags (l : List Char) : Option (List Char × List Char) :=
  if ("tags:".data).isPrefixOf l then
    let rest := l.drop 5
    let run := rest.takeWhile jsIsSpace
    if run.contains '\n' then
      let wsTail := afterLastNl run
      let afterRun := rest.dropWhile jsIsSpace
      let headPart := ("tags:".data) ++ run.take (run.length - wsTail.length)
      let p := blockItems (wsTail ++ afterRun)
      some (headPart ++ p.1, p.2)
    else none
  else none

theorem matchBlockTags_length_lt (l matched rest : List Char)
    (h : matchBlockTags l = some (matched, rest)) : rest.length < l.length := by
  unfold matchBlockTags at h
  simp only [] at h
  split at h
  · next hpre =>
    split at h
    · next hnl =>
      injection h with h1
      have ha : rest = (blockItems
          (afterLastNl ((l.drop 5).takeWhile jsIsSpace) ++
           (l.drop 5).dropWhile jsIsSpace)).2 := (congrArg Prod.snd h1).symm
      have hb := blockItems_length_le
        (afterLastNl ((l.drop 5).takeWhile jsIsSpace) ++
         (l.drop 5).dropWhile jsIsSpace)
      have e1 := congrArg List.length
        (List.takeWhile_append_dropWhile jsIsSpace (l.drop 5))
      simp only [List.length_append, List.length_drop] at e1
      have h5 : 5 ≤ l.length := by
        have := (List.isPrefixOf_iff_prefix.mp hpre).length_le
        simpa using this
      have htail : (afterLastNl ((l.drop 5).takeWhile jsIsSpace)).length + 1 ≤
          ((l.drop 5).takeWhile jsIsSpace).length := by
        unfold afterLastNl
        have hds : ((l.drop 5).takeWhile jsIsSpace).reverse.dropWhile
            (fun c => c ≠ '\n') ≠ [] := by
          intro hempty
          rw [List.dropWhile_eq_nil_iff] at hempty
          have := hempty '\n' (by simpa using hnl)
          simp at this
        have e2 := congrArg List.length
          (List.takeWhile_append_dropWhile (fun c => c ≠ '\n')
            ((l.drop 5).takeWhile jsIsSpace).reverse)
        simp only [List.length_append, List.length_reverse] at e2
        have hpos : 0 < (((l.drop 5).takeWhile jsIsSpace).reverse.dropWhile
            (fun c => c ≠ '\n')).length := List.length_pos.mpr hds
        simp only [List.length_reverse]
        omega
      have hab : (afterLastNl ((l.drop 5).takeWhile jsIsSpace) ++
          (l.drop 5).dropWhile jsIsSpace).length =
          (afterLastNl ((l.drop 5).takeWhile jsIsSpace)).length +
          ((l.drop 5).dropWhile jsIsSpace).length := List.length_append _ _
      rw [ha]
      omega
    · exact absurd h (by simp)
  · exact absurd h (by simp)

/-- One attempt of the block-pass inner pattern
`(\s*-\s*)["\']([^"\'\n]+?)["\'](\n?)` at the head of `l`.  Returns the matched
prefix `\s*-\s*`, the quote characters, the (nonempty) value, the optional
trailing newline, and the rest. -/
def matchBlockItemQuote (l : List Char) :
    Option (List Char × Char × List Char × Char × List Char × List Char) :=
  let ws1 := l.takeWhile jsIsSpace
  let r1 := l.dropWhile jsIsSpace
  if r1.head? = some '-' then
    let r2 := r1.tail
    let ws2 := r2.takeWhile jsIsSpace
    let r3 := r2.dropWhile jsIsSpace
    match r3.head? with
    | some q =>
      if isQuote q then
        let r4 := r3.tail
        let val := r4.takeWhile notQuoteNl
        let r5 := r4.dropWhile notQuoteNl
        match r5.head? with
        | some q2 =>
          if isQuote q2 && val ≠ [] then
            let r6 := r5.tail
            if r6.head? = some '\n' then
              some (ws1 ++ '-' :: ws2, q, val, q2, ['\n'], r6.tail)
            else
              some (ws1 ++ '-' :: ws2, q, val, q2, [], r6)
          else none
        | none => none
      else none
    | none => none
  else none

theorem matchBlockItemQuote_length_lt (l pre : List Char) (q : Char)
    (val : List Char) (q2 : Char) (nl rest : List Char)
    (h : matchBlockItemQuote l = some (pre, q, val, q2, nl, rest)) :
    rest.length < l.length := by
  unfold matchBlockItemQuote at h
  simp only [] at h
  have e1 := congrArg List.length (List.takeWhile_append_dropWhile jsIsSpace l)
  simp only [List.length_append] at e1
  have e2 := congrArg List.length
    (List.takeWhile_append_dropWhile jsIsSpace (l.dropWhile jsIsSpace).tail)
  simp only [List.length_append] at e2
  have e3 := congrArg List.length
    (List.takeWhile_append_dropWhile notQuoteNl
      ((((l.dropWhile jsIsSpace).tail).dropWhile jsIsSpace).tail))
  simp only [List.length_append] at e3
  split at h
  · next hd1 =>
    have hr1 : l.dropWhile jsIsSpace ≠ [] := by
      intro he
      rw [he] at hd1
      simp at hd1
    have htl1 : (l.dropWhile jsIsSpace).tail.length + 1 =
        (l.dropWhile jsIsSpace).length := by
      rw [List.length_tail]
      have := List.length_pos.mpr hr1
      omega
    split at h
    · next q0 hd2 =>
      split at h
      · split at h
        · next q20 hd3 =>
          split at h
          · have hr3 : ((l.dropWhile jsIsSpace).tail).dropWhile jsIsSpace ≠ [] := by
              intro he
              rw [he] at hd2
              simp at hd2
            have htl3 : (((l.dropWhile jsIsSpace).tail).dropWhile jsIsSpace).tail.length + 1 =
                (((l.dropWhile jsIsSpace).tail).dropWhile jsIsSpace).length := by
              rw [List.length_tail]
              have := List.length_pos.mpr hr3
              omega
            have hr5 : ((((l.dropWhile jsIsSpace).tail).dropWhile jsIsSpace).tail).dropWhile
                notQuoteNl ≠ [] := by
              intro he
              rw [he] at hd3
              simp at hd3
            have htl5 : (((((l.dropWhile jsIsSpace).tail).dropWhile jsIsSpace).tail).dropWhile
                notQuoteNl).tail.length + 1 =
                (((((l.dropWhile jsIsSpace).tail).dropWhile jsIsSpace).tail).dropWhile
                notQuoteNl).length := by
              rw [List.length_tail]
              have := List.length_pos.mpr hr5
              omega
            split at h
            · next hd4 =>
              have hr6 : (((((l.dropWhile jsIsSpace).tail).dropWhile jsIsSpace).tail).dropWhile
                  notQuoteNl).tail ≠ [] := by
                intro he
                rw [he] at hd4
                simp at hd4
              have htl6 : ((((((l.dropWhile jsIsSpace).tail).dropWhile jsIsSpace).tail).dropWhile
                  notQuoteNl).tail).tail.length + 1 =
                  (((((l.dropWhile jsIsSpace).tail).dropWhile jsIsSpace).tail).dropWhile
                  notQuoteNl).tail.length := by
                rw [List.length_tail]
                have := List.length_pos.mpr hr6
                omega
              simp only [Option.some.injEq, Prod.mk.injEq] at h
              obtain ⟨-, -, -, -, -, hrest⟩ := h
              subst hrest
              omega
            · simp only [Option.some.injEq, Prod.mk.injEq] at h
              obtain ⟨-, -, -, -, -, hrest⟩ := h
              subst hrest
              omega
          · exact absurd h (by simp)
        · exact absurd h (by simp)
      · exact absurd h (by simp)
    · exact absurd h (by simp)
  · exact absurd h (by simp)

/-- Inner replacement of the block pass:
`match.replace(/(\s*-\s*)["']([^"'\n]+?)["'](\n?)/g, …)`. -/
def fmtBlockInnerGo : Nat → List Char → List Char
  | 0, l => l
  | _ + 1, [] => []
  | fuel + 1, c :: rest =>
    match matchBlockItemQuote (c :: rest) with
    | some (pre, q, val, q2, nl, r) =>
      let f := formatSingleTag ⟨val⟩
      if f ≠ "" then pre ++ '"' :: (f.data ++ '"' :: (nl ++ fmtBlockInnerGo fuel r))
      else pre ++ q :: (val ++ q2 :: (nl ++ fmtBlockInnerGo fuel r))
    | none => c :: fmtBlockInnerGo fuel rest

def fmtBlockInner (l : List Char) : List Char := fmtBlockInnerGo (l.length + 1) l

/-- Second pass of `formatTagsForObsidian`:
`replace(/tags:\s*\n(\s*-\s*[^\n]*\n?)*/gm, match => match.replace(…))`. -/
def fmtBlockTagsGo : Nat → List Char → List Char
  | 0, l => l
  | _ + 1, [] => []
  | fuel + 1, c :: rest =>
    match matchBlockTags (c :: rest) with
    | some (matched, r) => fmtBlockInner matched ++ fmtBlockTagsGo fuel r
    | none => c :: fmtBlockTagsGo fuel rest

def fmtBlockTags (l : List Char) : List Char := fmtBlockTagsGo (l.length + 1) l

/-- `formatTagsForObsidian` (lines 719–734): inline-array pass, then
block-list pass. -/
def formatTagsForObsidian (metadata : String) : String :=
  ⟨fmtBlockTags (fmtInlineTags metadata.data)⟩

/-- Is the text after a title value an admissible ending for
`["']?$` — nothing, or a single closing quote? -/
def closingOk : List Char → Bool
  | [] => true
  | [q] => isQuote q
  | _ => false

/-- `formatTitleForObsidian` on one line:
`^title:\s*["']([^"'\n]+)["']?$` with the greedy nonempty value. -/
def fmtTitleLine (line : List Char) : List Char :=
  if ("title:".data).isPrefixOf line then
    let r1 := (line.drop 6).dropWhile jsIsSpace
    match r1 with
    | q :: r2 =>
      if isQuote q then
        let val := r2.takeWhile notQuoteNl
        let r3 := r2.dropWhile notQuoteNl
        if val ≠ [] && closingOk r3 then
          if jsTrim ⟨val⟩ ≠ "" then
            ("title: \"".data) ++ ((formatSingleTag ⟨val⟩).data ++ ['"'])
          else line
        else line
      else line
    | [] => line
  else line

/-- `formatTitleForObsidian` (lines 739–747): the `/m` anchors make the
pattern line-oriented, so the global replace maps over `'\n'`-lines. -/
def formatTitleForObsidian (metadata : String) : String :=
  ⟨joinNl ((splitNl metadata.data).map fmtTitleLine)⟩

/-- `validateAndFormatMetadata` (lines 687–717).  `currentDate` stands for
`new Date().toISOString().split('T')[0]`; the `template` parameter is unused
by the source body as well.  The throw on empty content surfaces as the
wrapped catch message. -/
def validateAndFormatMetadata (currentDate metadata template : String) :
    Except String String :=
  let c1 := stripTrailIf ("\n```".data) (stripLeadIf ("```yaml\n".data) metadata.data)
  let c2 := stripTrailIf ("\n```".data) (stripLeadIf ("```\n".data) c1)
  let c3 := stripLeadIf ("---\n".data) c2
  let validLines := (splitNl c3).filter (fun l => trimChars l ≠ [])
  if validLines = [] then
    .error "Metadata format validation failed: Generated metadata is empty"
  else
    let c4 := replaceAll ("\x7b\x7bdate\x7d\x7d".data) currentDate.data c3
    let c5 := (formatTagsForObsidian ⟨c4⟩).data
    let c6 := (formatTitleForObsidian ⟨c5⟩).data
    .ok ⟨c6⟩

/-! ### TemplateManager (src/unnamed/part_000, class `TemplateManager`).

The JS `Map<string, MetadataTemplate>` is modelled as an insertion-ordered
association list: `Map.set` on an existing key overwrites in place, on a
fresh key appends. -/

/-- The template store: insertion-ordered `(id, template)` entries. -/
abbrev TemplateStore := List (String × MetadataTemplate)

/-- JS `Map.get`. -/
def mapGet (store : TemplateStore) (id : String) : Option MetadataTemplate :=
  (store.find? (fun e => e.1 = id)).map (fun e => e.2)

/-- JS `Map.set`. -/
def mapSet (store : TemplateStore) (id : String) (t : MetadataTemplate) :
    TemplateStore :=
  if (store.find? (fun e => e.1 = id)).isSome then
    store.map (fun e => if e.1 = id then (id, t) else e)
  else store ++ [(id, t)]

/-- `Partial<Omit<MetadataTemplate, 'id' | 'isBuiltIn' | 'createdAt'>>`. -/
structure TemplateUpdates where
  name : Option String := none
  description : Option String := none
  yamlStructure : Option String := none
  aiPrompt : Option String := none
  updatedAt : Option Nat := none
deriving DecidableEq, Repr

/-- The spread `{...template, ...updates, updatedAt: new Date()}` — the
trailing `updatedAt` wins over any `updates.updatedAt`. -/
def applyUpdates (t : MetadataTemplate) (u : TemplateUpdates) (now : Nat) :
    MetadataTemplate :=
  { t with
    name := u.name.getD t.name
    description := u.description.getD t.description
    yamlStructure := u.yamlStructure.getD t.yamlStructure
    aiPrompt := u.aiPrompt.getD t.aiPrompt
    updatedAt := now }

/-- `updateTemplate` (lines 57–71): refuses unknown ids and built-ins. -/
def updateTemplate (store : TemplateStore) (id : String) (updates : TemplateUpdates)
    (now : Nat) : Bool × TemplateStore :=
  match mapGet store id with
  | none => (false, store)
  | some t =>
    if t.isBuiltIn then (false, store)
    else (true, mapSet store id (applyUpdates t updates now))

/-- `deleteTemplate` (lines 76–83): refuses unknown ids and built-ins;
`Map.delete` removes the entry. -/
def deleteTemplate (store : TemplateStore) (id : String) : Bool × TemplateStore :=
  match mapGet store id with
  | none => (false, store)
  | some t =>
    if t.isBuiltIn then (false, store)
    else (true, store.filter (fun e => e.1 ≠ id))

/-- `BUILT_IN_TEMPLATES` (src/defaults.ts lines 4–148); `new Date()` at
module load is the `now` parameter. -/
def BUILT_IN_TEMPLATES (now : Nat) : List MetadataTemplate :=
  [{ id := "general-note", name := "General Note",
     description := "Suitable for daily notes, idea recording, etc.",
     yamlStructure := "title: \"\"\ndate: \"\x7b\x7bdate\x7d\x7d\"\ntags: []\ncategory: \"\"\nsummary: \"\"",
     aiPrompt := "Please generate appropriate metadata based on the document content. Requirements:\n1. title: Generate a concise and clear title for the document. IMPORTANT: Use lowercase letters and hyphens (-) to connect multiple words (e.g., \"machine-learning-guide\", \"project-management-notes\")\n2. date: Use current date (\x7b\x7bdate\x7d\x7d)\n3. tags: Generate 3-5 relevant tags based on content. IMPORTANT: Tags must use lowercase letters and hyphens (-) to connect multiple words (e.g., \"machine-learning\", \"project-management\")\n4. category: Assign a main category for the document\n5. summary: Generate a summary within 50 words\n\nPlease ensure the generated content accurately reflects the document theme, and tags are specific and useful.",
     isBuiltIn := true, createdAt := now, updatedAt := now },
   { id := "meeting-notes", name := "Meeting Notes",
     description := "Suitable for meeting records, discussion minutes",
     yamlStructure := "title: \"\"\ndate: \"\x7b\x7bdate\x7d\x7d\"\nmeeting_type: \"\"\nparticipants: []\nduration: \"\"\nlocation: \"\"\ntags: []\nagenda_items: []\naction_items: []\nnext_meeting: \"\"",
     aiPrompt := "Please generate metadata based on meeting content. Requirements:\n1. title: Generate meeting title\n2. date: Use current date (\x7b\x7bdate\x7d\x7d)\n3. meeting_type: Identify meeting type (e.g. weekly meeting, project meeting, decision meeting, etc.)\n4. participants: Extract attendees (if mentioned)\n5. duration: Estimate meeting duration (if information available)\n6. location: Extract meeting location (if available)\n7. tags: Generate relevant tags. IMPORTANT: Tags must use lowercase letters and hyphens (-) to connect multiple words (e.g., \"weekly-meeting\", \"project-planning\")\n8. agenda_items: Extract main agenda items\n9. action_items: Extract action items and tasks\n10. next_meeting: Extract next meeting arrangements (if available)\n\nFocus on structured information and actionable items.",
     isBuiltIn := true, createdAt := now, updatedAt := now },
   { id := "academic-paper", name := "Academic Paper",
     description := "Suitable for academic papers and research documents",
     yamlStructure := "title: \"\"\ndate: \"\x7b\x7bdate\x7d\x7d\"\nauthors: []\njournal: \"\"\nyear: \"\"\ndoi: \"\"\ntags: []\ncategory: \"academic\"\nabstract: \"\"\nkeywords: []",
     aiPrompt := "Please generate metadata for academic content. Requirements:\n1. title: Generate academic-style title\n2. date: Use current date (\x7b\x7bdate\x7d\x7d)\n3. authors: Extract author names (if mentioned)\n4. journal: Extract journal/conference name (if available)\n5. year: Extract publication year (if available)\n6. doi: Extract DOI (if available)\n7. tags: Generate academic tags using lowercase and hyphens\n8. category: Set to \"academic\"\n9. abstract: Generate brief abstract/summary\n10. keywords: Extract key research terms",
     isBuiltIn := true, createdAt := now, updatedAt := now },
   { id := "book-review", name := "Book Review",
     description := "Suitable for book reviews and reading notes",
     yamlStructure := "title: \"\"\ndate: \"\x7b\x7bdate\x7d\x7d\"\nbook_title: \"\"\nauthor: \"\"\nisbn: \"\"\npublisher: \"\"\nyear: \"\"\nrating: \"\"\ntags: []\ncategory: \"book-review\"\nsummary: \"\"\nquotes: []",
     aiPrompt := "Please generate metadata for book review content. Requirements:\n1. title: Generate review title\n2. date: Use current date (\x7b\x7bdate\x7d\x7d)\n3. book_title: Extract book title\n4. author: Extract book author\n5. isbn: Extract ISBN (if available)\n6. publisher: Extract publisher (if available)\n7. year: Extract publication year (if available)\n8. rating: Extract rating (if mentioned)\n9. tags: Generate book-related tags\n10. category: Set to \"book-review\"\n11. summary: Generate brief summary\n12. quotes: Extract notable quotes (if any)",
     isBuiltIn := true, createdAt := now, updatedAt := now },
   { id := "project-doc", name := "Project Documentation",
     description := "Suitable for project documentation and specifications",
     yamlStructure := "title: \"\"\ndate: \"\x7b\x7bdate\x7d\x7d\"\nproject: \"\"\nversion: \"\"\nstatus: \"\"\ntags: []\ncategory: \"project\"\ndescription: \"\"\nrequirements: []\ndeliverables: []",
     aiPrompt := "Please generate metadata for project documentation. Requirements:\n1. title: Generate project document title\n2. date: Use current date (\x7b\x7bdate\x7d\x7d)\n3. project: Extract project name\n4. version: Extract version (if available)\n5. status: Determine project status (draft, in-progress, completed)\n6. tags: Generate project-related tags\n7. category: Set to \"project\"\n8. description: Generate brief description\n9. requirements: Extract key requirements (if mentioned)\n10. deliverables: Extract deliverables (if mentioned)",
     isBuiltIn := true, createdAt := now, updatedAt := now }]

/-- `initializeBuiltInTemplates`: `BUILT_IN_TEMPLATES.forEach(t =>
this.templates.set(t.id, t))` on the empty map. -/
def initializeBuiltInTemplates (now : Nat) : TemplateStore :=
  (BUILT_IN_TEMPLATES now).foldl (fun m t => mapSet m t.id t) []

/-! ### AIService: generation client (src/unnamed/part_000, class `AIService`) -/

/-- `AIApiConfig` (temperature as `ℚ`, timeout in ms). -/
structure AIApiConfig where
  provider : String
  apiKey : String
  baseUrl : String
  model : String
  temperature : ℚ
  maxTokens : Nat
  timeout : Nat
deriving DecidableEq, Repr

/-- `DEFAULT_AI_CONFIG` (src/defaults.ts lines 150–158). -/
def DEFAULT_AI_CONFIG : AIApiConfig :=
  { provider := "openai", apiKey := "", baseUrl := "https://api.openai.com/v1",
    model := "gpt-3.5-turbo", temperature := 7 / 10, maxTokens := 1000,
    timeout := 30000 }

structure OpenAIMessage where
  role : String
  content : String
deriving DecidableEq, Repr

structure OpenAIChoiceMessage where
  content : String
deriving DecidableEq, Repr

structure OpenAIChoice where
  message : OpenAIChoiceMessage
deriving DecidableEq, Repr

/-- `OpenAIResponse`; `usage` is `usage?.total_tokens`. -/
structure OpenAIResponse where
  choices : List OpenAIChoice
  usage : Option Nat := none
deriving DecidableEq, Repr

structure OpenAIRequest where
  model : String
  messages : List OpenAIMessage
  temperature : ℚ
  max_tokens : Nat
deriving DecidableEq, Repr

/-- Outcome of one `fetch` of `makeApiRequest`: a parsed 2xx JSON body, a
non-2xx status with body text, or the abort-controller timeout. -/
inductive TransportResult where
  | ok (data : OpenAIResponse)
  | httpError (status : Nat) (body : String)
  | abortTimeout
deriving DecidableEq, Repr

/-- `getLanguageSpecificPrompt` (lines 493–534): `(systemRole,
languageInstruction)`, English fallback. -/
def getLanguageSpecificPrompt (language : String) : String × String :=
  if language = "zh" then
    ("你是一个专业的文档元数据生成助手。请根据用户提供的文档内容和模板要求，生成准确、有用的YAML格式元数据。",
     "标题使用英文生成（小写字母，多个单词用连字符连接）。摘要和其他内容使用中文生成。标签优先使用中文，但专有名词（如技术术语、品牌名等）可保留英文。中文标签示例：\"机器学习\"、\"数据分析\"、\"项目管理\"；英文专有名词示例：\"python\"、\"docker\"、\"api\"")
  else if language = "ja" then
    ("あなたは文書メタデータ生成の専門アシスタントです。ユーザーが提供する文書内容とテンプレート要件に基づいて、正確で有用なYAML形式のメタデータを生成してください。",
     "日本語でタイトル、要約、タグなどのコンテンツを生成する。タグは小文字とハイフン(-)で複数の単語を接続する形式を使用してください")
  else if language = "ko" then
    ("당신은 전문 문서 메타데이터 생성 도우미입니다. 사용자가 제공하는 문서 내용과 템플릿 요구사항을 바탕으로 정확하고 유용한 YAML 형식의 메타데이터를 생성해 주세요.",
     "한국어로 제목, 요약, 태그 등의 콘텐츠 생성. 태그는 소문자와 하이픈(-)을 사용하여 여러 단어를 연결하는 형식을 사용하세요")
  else if language = "fr" then
    ("Vous êtes un assistant professionnel de génération de métadonnées de documents. Veuillez générer des métadonnées au format YAML précises et utiles basées sur le contenu du document et les exigences du modèle fournis par l\x27utilisateur.",
     "Générer les titres, résumés, balises et autres contenus en français. Les balises doivent utiliser des lettres minuscules avec des traits d\x27union (-) pour connecter plusieurs mots")
  else if language = "de" then
    ("Sie sind ein professioneller Assistent für die Generierung von Dokument-Metadaten. Bitte generieren Sie genaue und nützliche YAML-Format-Metadaten basierend auf dem Dokumentinhalt und den Template-Anforderungen, die der Benutzer bereitstellt.",
     "Titel, Zusammenfassungen, Tags und andere Inhalte auf Deutsch generieren. Tags müssen Kleinbuchstaben mit Bindestrichen (-) verwenden, um mehrere Wörter zu verbinden")
  else if language = "es" then
    ("Eres un asistente profesional de generación de metadatos de documentos. Por favor, genera metadatos en formato YAML precisos y útiles basados en el contenido del documento y los requisitos de plantilla proporcionados por el usuario.",
     "Generar títulos, resúmenes, etiquetas y otros contenidos en español. Las etiquetas deben usar letras minúsculas con guiones (-) para conectar múltiples palabras")
  else if language = "it" then
    ("Sei un assistente professionale per la generazione di metadati di documenti. Si prega di generare metadati in formato YAML accurati e utili basati sul contenuto del documento e sui requisiti del template forniti dall\x27utente.",
     "Generare titoli, riassunti, tag e altri contenuti in italiano. I tag devono usare lettere minuscole con trattini (-) per collegare più parole")
  else if language = "ru" then
    ("Вы профессиональный помощник по генерации метаданных документов. Пожалуйста, создайте точные и полезные метаданные в формате YAML на основе содержания документа и требований шаблона, предоставленных пользователем.",
     "Генерировать заголовки, резюме, теги и другой контент на русском языке. Теги должны использовать строчные буквы с дефисами (-) для соединения нескольких слов")
  else
    ("You are a professional document metadata generation assistant. Please generate accurate and useful YAML format metadata based on the document content and template requirements provided by the user.",
     "Generate titles, summaries, tags and other content in English. Tags must use lowercase letters with hyphens (-) connecting multiple words")

/-- `buildSystemPrompt` (lines 388–413); its `new Date().toISOString()
.split('T')[0]` is the `currentDate` parameter. -/
def buildSystemPrompt (currentDate : String)
    (request : MetadataGenerationRequest) : String :=
  let detectedLanguage := detectLanguage request.documentContent
  let lp := getLanguageSpecificPrompt detectedLanguage
  lp.1 ++
  "\n\nRequirements:\n1. Strictly follow the provided YAML template structure\n2. Ensure the generated content accurately reflects the document content\n3. " ++
  lp.2 ++ "\n4. Use date format: " ++ currentDate ++
  "\n5. IMPORTANT: Title must use lowercase letters and connect multiple words with hyphens (-). For example: \"machine-learning-guide\", \"project-management-notes\"\n6. IMPORTANT: All tags must be formatted for Obsidian compatibility - use lowercase letters and connect multiple words with hyphens (-). For example: \"machine-learning\", \"project-management\", \"data-science\"\n7. Tags should be specific and useful, avoid being too broad\n8. Only return YAML format metadata, do not include other content\n9. Do not include YAML separators (---)\n\nTemplate structure:\n```yaml\n" ++
  request.template.yamlStructure ++
  "\n```\n\nSpecific requirements:\n" ++ request.template.aiPrompt

/-- Localized labels of `getLanguageLabels` (lines 556–615). -/
structure LanguageLabels where
  fileName : String
  documentContent : String
  existingMetadata : String
  updateInstruction : String
deriving DecidableEq, Repr

def getLanguageLabels (language : String) : LanguageLabels :=
  if language = "zh" then
    ⟨"文件名：", "文档内容：", "现有元数据：", "请基于现有元数据进行更新和完善。"⟩
  else if language = "ja" then
    ⟨"ファイル名：", "ドキュメント内容：", "既存のメタデータ：", "既存のメタデータに基づいて更新・改善してください。"⟩
  else if language = "ko" then
    ⟨"파일명: ", "문서 내용:", "기존 메타데이터:", "기존 메타데이터를 기반으로 업데이트하고 개선해주세요."⟩
  else if language = "fr" then
    ⟨"Nom du fichier : ", "Contenu du document :", "Métadonnées existantes :",
     "Veuillez mettre à jour et améliorer en vous basant sur les métadonnées existantes."⟩
  else if language = "de" then
    ⟨"Dateiname: ", "Dokumentinhalt:", "Vorhandene Metadaten:",
     "Bitte aktualisieren und verbessern Sie basierend auf den vorhandenen Metadaten."⟩
  else if language = "es" then
    ⟨"Nombre del archivo: ", "Contenido del documento:", "Metadatos existentes:",
     "Por favor, actualice y mejore basándose en los metadatos existentes."⟩
  else if language = "it" then
    ⟨"Nome del file: ", "Contenuto del documento:", "Metadati esistenti:",
     "Si prega di aggiornare e migliorare basandosi sui metadati esistenti."⟩
  else if language = "ru" then
    ⟨"Имя файла: ", "Содержимое документа:", "Существующие метаданные:",
     "Пожалуйста, обновите и улучшите на основе существующих метаданных."⟩
  else
    ⟨"File name: ", "Document content:", "Existing metadata:",
     "Please update and improve based on existing metadata."⟩

/-- `buildUserPrompt` (lines 539–551); `if (request.existingMetadata)` is JS
truthiness, so an empty existing-metadata string is skipped. -/
def buildUserPrompt (request : MetadataGenerationRequest) : String :=
  let detectedLanguage := detectLanguage request.documentContent
  let labels := getLanguageLabels detectedLanguage
  let base := labels.fileName ++ request.fileName ++ "\n\n" ++
    labels.documentContent ++ "\n" ++ request.documentContent
  if jsTruthyStr request.existingMetadata then
    base ++ "\n\n" ++ labels.existingMetadata ++ "\n" ++
      request.existingMetadata.getD "" ++ "\n\n" ++ labels.updateInstruction
  else base

/-- `buildMessages` (lines 369–383). -/
def buildMessages (currentDate : String)
    (request : MetadataGenerationRequest) : List OpenAIMessage :=
  [⟨"system", buildSystemPrompt currentDate request⟩,
   ⟨"user", buildUserPrompt request⟩]

/-- `makeApiRequest` (lines 620–669), with the `fetch` call abstracted as a
`transport` oracle; its error strings are the thrown messages. -/
def makeApiRequest (cfg : AIApiConfig)
    (transport : OpenAIRequest → TransportResult)
    (messages : List OpenAIMessage) (isTest : Bool) :
    Except String OpenAIResponse :=
  let requestBody : OpenAIRequest :=
    { model := cfg.model, messages := messages,
      temperature := if isTest then 0 else cfg.temperature,
      max_tokens := if isTest then 50 else cfg.maxTokens }
  match transport requestBody with
  | .abortTimeout => .error "API request timeout"
  | .httpError status body =>
    .error ("API request failed (" ++ toString status ++ "): " ++ body)
  | .ok data =>
    if data.choices.isEmpty then
      .error "API response format error: missing choices field"
    else .ok data

/-- `generateMetadata` (lines 293–331), returning the response together with
the number of transport invocations.  `currentDate` and `elapsed`
(`Date.now() - startTime`) stand for the clock reads. -/
def generateMetadata (cfg : AIApiConfig)
    (transport : OpenAIRequest → TransportResult)
    (currentDate : String) (elapsed : Nat)
    (request : MetadataGenerationRequest) :
    MetadataGenerationResponse × Nat :=
  if cfg.apiKey = "" then
    ({ success := false, error := some "API_KEY_MISSING",
       processingTime := some elapsed }, 0)
  else
    let messages := buildMessages currentDate request
    match makeApiRequest cfg transport messages false with
    | .error e =>
      ({ success := false, error := some e, processingTime := some elapsed }, 1)
    | .ok resp =>
      let content := (resp.choices.head?.map (fun c => c.message.content)).getD ""
      if content = "" then
        ({ success := false, error := some "INVALID_RESPONSE",
           processingTime := some elapsed }, 1)
      else
        let metadata := jsTrim content
        match validateAndFormatMetadata currentDate metadata
            request.template.yamlStructure with
        | .error e =>
          ({ success := false, error := some e, processingTime := some elapsed }, 1)
        | .ok validated =>
          ({ success := true, metadata := some validated,
             tokensUsed := some (resp.usage.getD 0),
             processingTime := some elapsed }, 1)

/-! ### MetadataGenerator: batch generation (src/metadata-generator.ts
lines 244–303) -/

/-- A vault file: name and current text (the read side of the external
document storage). -/
structure BatchFile where
  name : String
  content : String
deriving DecidableEq, Repr

/-- The `results` accumulator of `batchGenerate`. -/
structure BatchResults where
  success : Nat
  failed : Nat
  errors : List String
deriving DecidableEq, Repr

/-- The `for (let i = 0; i < files.length; i += maxConcurrent)` batching.
With `maxConcurrent = 0` the JS loop never terminates; that case is modelled
as a single chunk and excluded by hypothesis in every theorem. -/
def chunkList (k : Nat) : List α → List (List α)
  | [] => []
  | c :: rest =>
    if h : k = 0 then [c :: rest]
    else (c :: rest).take k :: chunkList k ((c :: rest).drop k)
termination_by l => l.length
decreasing_by
  · simp only [List.length_drop, List.length_cons]
    omega

/-- The per-file body of `batchGenerate`'s `batch.map(async file => …)`:
read, extract, reject empty documents, generate, reject failed responses,
insert (external write), update usage stats; any failure is caught and
recorded as `` `${file.name}: ${message}` ``. -/
def processOneFile (gen : MetadataGenerationRequest → MetadataGenerationResponse)
    (template : MetadataTemplate) (now : Nat)
    (acc : BatchResults × UsageStats) (file : BatchFile) :
    BatchResults × UsageStats :=
  let documentContent := extractDocumentContent file.content
  if jsTrim documentContent = "" then
    ({ acc.1 with
       failed := acc.1.failed + 1
       errors := acc.1.errors ++ [file.name ++ ": Document content is empty"] },
     acc.2)
  else
    let response := gen { documentContent := documentContent,
                          fileName := file.name, template := template }
    if response.success && jsTruthyStr response.metadata then
      ({ acc.1 with success := acc.1.success + 1 },
       updateUsageStats acc.2 response ((response.processingTime.getD 0 : Nat) : ℚ) now)
    else
      ({ acc.1 with
         failed := acc.1.failed + 1
         errors := acc.1.errors ++
           [file.name ++ ": " ++ jsOrStr response.error "Generation failed"] },
       acc.2)

/-- `batchGenerate`: template lookup (throwing on a missing template), then
the chunked loop; within a chunk the single-threaded event loop completes
the synchronous model steps in list order. -/
def batchGenerate (getTemplate : String → Option MetadataTemplate)
    (gen : MetadataGenerationRequest → MetadataGenerationResponse)
    (files : List BatchFile) (templateId : String)
    (maxConcurrent : Nat) (now : Nat) (stats0 : UsageStats) :
    Except String (BatchResults × UsageStats) :=
  match getTemplate templateId with
  | none => .error "Template does not exist"
  | some template =>
    .ok ((chunkList maxConcurrent files).foldl
      (fun acc batch => batch.foldl (processOneFile gen template now) acc)
      ({ success := 0, failed := 0, errors := [] }, stats0))

/-! ### MetadataGenerator: stats object identity (`getUsageStats`,
`resetUsageStats`).

To express the reference/copy distinction of `return { ...this.usageStats }`,
stats records live in a heap (a list of records) and the generator holds a
reference (an index).  `getUsageStats` allocates a fresh record holding a
field-wise copy; `updateUsageStats` and the failure path mutate the record
the generator currently references; `resetUsageStats` rebinds the generator
to a freshly allocated record; a caller may freely mutate any record it has
a reference to. -/

structure GenHeapState where
  heap : List UsageStats
  cur : Nat
deriving DecidableEq, Repr

/-- Read a heap cell (out-of-range reads are junk, never exercised under the
stated invariants). -/
def heapRead (s : GenHeapState) (i : Nat) : UsageStats :=
  s.heap.getD i (initialUsageStats 0)

/-- One mutation step against the generator state. -/
inductive StatsOp where
  | update (r : MetadataGenerationResponse) (t : ℚ) (now : Nat)
  | failIncr
  | reset (now : Nat)
  | mutateRef (ref : Nat) (v : UsageStats)
deriving DecidableEq, Repr

/-- `this.usageStats.failedRequests++` as a record function. -/
def failBump (u : UsageStats) : UsageStats :=
  { u with failedRequests := u.failedRequests + 1 }

/-- `update`/`failIncr` mutate the referenced record in place; `reset`
allocates a fresh zeroed record and rebinds `this.usageStats` to it;
`mutateRef` is a caller writing through a reference it holds. -/
def stepOp (s : GenHeapState) : StatsOp → GenHeapState
  | .update r t now =>
    { s with heap := s.heap.set s.cur (updateUsageStats (heapRead s s.cur) r t now) }
  | .failIncr =>
    { s with heap := s.heap.set s.cur (failBump (heapRead s s.cur)) }
  | .reset now =>
    { heap := s.heap ++ [initialUsageStats now], cur := s.heap.length }
  | .mutateRef ref v => { s with heap := s.heap.set ref v }

/-- Run a sequence of steps. -/
def runOps (s : GenHeapState) (ops : List StatsOp) : GenHeapState :=
  ops.foldl stepOp s

/-- `getUsageStats`: `return { ...this.usageStats }` allocates a new object
whose fields are copied from the internal record, and hands the caller a
reference to the copy. -/
def getUsageStats (s : GenHeapState) : Nat × GenHeapState :=
  (s.heap.length, { s with heap := s.heap ++ [heapRead s s.cur] })

/-- An operation the orchestrator itself performs (everything except a
caller mutating a snapshot it received). -/
def internalOp : StatsOp → Prop
  | .mutateRef _ _ => False
  | _ => True

instance : DecidablePred internalOp := fun op => by
  cases op <;> simp only [internalOp] <;> infer_instance

/-! ### Helper lemmas -/

theorem strMk_data (s : String) : (⟨s.data⟩ : String) = s := by
  cases s
  rfl

theorem stripLeadIf_of_neg {pre l : List Char} (h : pre.isPrefixOf l = false) :
    stripLeadIf pre l = l := by
  unfold stripLeadIf
  simp [h]

theorem stripTrailIf_of_neg {suf l : List Char} (h : suf.isSuffixOf l = false) :
    stripTrailIf suf l = l := by
  unfold stripTrailIf
  simp [h]

/-! ### C1: usage-statistics updates -/

/-- Concrete failing response used in counterexamples and witnesses. -/
def respTimeout : MetadataGenerationResponse :=
  { success := false, error := some "API request timeout", processingTime := some 5 }

/-- Concrete successful response. -/
def respOk : MetadataGenerationResponse :=
  { success := true, metadata := some "title: \"t\"", tokensUsed := some 42,
    processingTime := some 5 }

/-- C1 counterexample: a completed request that failed (here, a transport
timeout surfaced as `success: false`) leaves `totalRequests` unchanged in
`generateWithTemplate` — only `failedRequests` is incremented — contradicting
the claim that `totalRequests` is incremented after every completed request. -/
theorem generateWithTemplate_fail_totalRequests_not_incremented :
    (generateWithTemplateStats (initialUsageStats 0) respTimeout 5 7).totalRequests ≠
      (initialUsageStats 0).totalRequests + 1 := by
  decide

/-- C1 (amended): `updateUsageStats` performs the full claimed update, but it
runs only on the success path; on a failed response `generateWithTemplate`
increments only `failedRequests`, and a failed document in `batchGenerate`
leaves the usage statistics entirely unchanged. -/
theorem usageStats_update_spec (s : UsageStats)
    (r : MetadataGenerationResponse) (t : ℚ) (now : Nat) :
    (r.success = true →
      (updateUsageStats s r t now).totalRequests = s.totalRequests + 1 ∧
      (updateUsageStats s r t now).successfulRequests = s.successfulRequests + 1 ∧
      (updateUsageStats s r t now).failedRequests = s.failedRequests ∧
      (updateUsageStats s r t now).totalTokensUsed =
        s.totalTokensUsed + r.tokensUsed.getD 0 ∧
      (updateUsageStats s r t now).averageProcessingTime =
        (s.averageProcessingTime * s.totalRequests + t) / (s.totalRequests + 1)) ∧
    ((r.success && jsTruthyStr r.metadata) = true →
      generateWithTemplateStats s r t now = updateUsageStats s r t now) ∧
    ((r.success && jsTruthyStr r.metadata) = false →
      generateWithTemplateStats s r t now =
        { s with failedRequests := s.failedRequests + 1 }) ∧
    (∀ (gen : MetadataGenerationRequest → MetadataGenerationResponse)
       (template : MetadataTemplate) (now2 : Nat)
       (acc : BatchResults × UsageStats) (file : BatchFile),
      (gen { documentContent := extractDocumentContent file.content,
             fileName := file.name, template := template }).success = false →
      (processOneFile gen template now2 acc file).2 = acc.2) := by
  refine ⟨?_, ?_, ?_, ?_⟩
  · intro hs
    have hcast : ((s.totalRequests + 1 : ℕ) : ℚ) - 1 = (s.totalRequests : ℚ) := by
      push_cast
      ring
    refine ⟨rfl, ?_, ?_, ?_, ?_⟩
    · simp [updateUsageStats, hs]
    · simp [updateUsageStats, hs]
    · cases hr : r.tokensUsed with
      | none => simp [updateUsageStats, jsTruthyNat, hr]
      | some k =>
        by_cases hk : k = 0
        · simp [updateUsageStats, jsTruthyNat, hr, hk]
        · simp [updateUsageStats, jsTruthyNat, hr, hk]
    · simp only [updateUsageStats]
      rw [hcast]
      push_cast
      ring_nf
  · intro hok
    simp [generateWithTemplateStats, hok]
  · intro hbad
    simp [generateWithTemplateStats, hbad]
  · intro gen template now2 acc file hfail
    unfold processOneFile
    by_cases hempty : jsTrim (extractDocumentContent file.content) = ""
    · simp [hempty]
    · simp [hempty, hfail]

/-- Witness for C1's amended theorem at the zero state with a successful
response carrying 42 tokens, and at a timed-out response. -/
theorem usageStats_update_spec_witness :
    respOk.success = true ∧
    (updateUsageStats (initialUsageStats 0) respOk 5 7).totalRequests =
      (initialUsageStats 0).totalRequests + 1 ∧
    (respTimeout.success && jsTruthyStr respTimeout.metadata) = false ∧
    generateWithTemplateStats (initialUsageStats 0) respTimeout 5 7 =
      { initialUsageStats 0 with failedRequests := (initialUsageStats 0).failedRequests + 1 } :=
  ⟨rfl,
   ((usageStats_update_spec (initialUsageStats 0) respOk 5 7).1 rfl).1,
   rfl,
   (usageStats_update_spec (initialUsageStats 0) respTimeout 5 7).2.2.1 rfl⟩

/-! ### C4: empty API key fails fast with no transport call -/

/-- Sample template/request used in witnesses. -/
def sampleTemplate : MetadataTemplate :=
  { id := "general-note", name := "General Note",
    description := "Suitable for daily notes, idea recording, etc.",
    yamlStructure := "title: \"\"\ntags: []", aiPrompt := "Generate metadata.",
    isBuiltIn := true, createdAt := 0, updatedAt := 0 }

instance : Inhabited MetadataTemplate := ⟨sampleTemplate⟩

def sampleRequest : MetadataGenerationRequest :=
  { documentContent := "hello world", fileName := "a.md",
    template := sampleTemplate }

/-- C4: with an empty `apiKey`, `generateMetadata` returns
`success: false` with error `API_KEY_MISSING` and the transport is invoked
zero times. -/
theorem generateMetadata_apiKeyMissing (cfg : AIApiConfig)
    (transport : OpenAIRequest → TransportResult)
    (currentDate : String) (elapsed : Nat)
    (request : MetadataGenerationRequest) (h : cfg.apiKey = "") :
    generateMetadata cfg transport currentDate elapsed request =
      ({ success := false, metadata := none, error := some "API_KEY_MISSING",
         tokensUsed := none, processingTime := some elapsed }, 0) := by
  unfold generateMetadata
  rw [if_pos h]

/-- Witness for C4: the shipped `DEFAULT_AI_CONFIG` has an empty key. -/
theorem generateMetadata_apiKeyMissing_witness :
    DEFAULT_AI_CONFIG.apiKey = "" ∧
    generateMetadata DEFAULT_AI_CONFIG (fun _ => .abortTimeout) "2026-10-11" 3
        sampleRequest =
      ({ success := false, metadata := none, error := some "API_KEY_MISSING",
         tokensUsed := none, processingTime := some 3 }, 0) :=
  ⟨rfl, generateMetadata_apiKeyMissing DEFAULT_AI_CONFIG (fun _ => .abortTimeout)
    "2026-10-11" 3 sampleRequest rfl⟩

/-! ### C7: built-in templates are immutable -/

/-- C7: `updateTemplate` and `deleteTemplate` return `false` and leave the
store untouched whenever the id resolves to a built-in template, and in the
freshly initialized store every `BUILT_IN_TEMPLATES` id resolves to a
built-in template. -/
theorem builtin_templates_immutable :
    (∀ (store : TemplateStore) (id : String) (updates : TemplateUpdates)
       (now : Nat) (t : MetadataTemplate),
      mapGet store id = some t → t.isBuiltIn = true →
      updateTemplate store id updates now = (false, store) ∧
      deleteTemplate store id = (false, store)) ∧
    (∀ (now : Nat) (tpl : MetadataTemplate), tpl ∈ BUILT_IN_TEMPLATES now →
      ∃ u, mapGet (initializeBuiltInTemplates now) tpl.id = some u ∧
        u.isBuiltIn = true) := by
  constructor
  · intro store id updates now t hget hbi
    constructor
    · unfold updateTemplate
      rw [hget]
      simp [hbi]
    · unfold deleteTemplate
      rw [hget]
      simp [hbi]
  · intro now tpl h
    simp only [BUILT_IN_TEMPLATES, List.mem_cons, List.not_mem_nil, or_false] at h
    rcases h with h | h | h | h | h <;> subst h <;> exact ⟨_, rfl, rfl⟩

/-- Witness for C7 at the initialized store and the `general-note` id. -/
theorem builtin_templates_immutable_witness :
    mapGet (initializeBuiltInTemplates 0) "general-note" =
      some ((BUILT_IN_TEMPLATES 0).headI) ∧
    ((BUILT_IN_TEMPLATES 0).headI).isBuiltIn = true ∧
    updateTemplate (initializeBuiltInTemplates 0) "general-note"
        { name := some "renamed" } 9 = (false, initializeBuiltInTemplates 0) ∧
    deleteTemplate (initializeBuiltInTemplates 0) "general-note" =
      (false, initializeBuiltInTemplates 0) := by
  refine ⟨rfl, rfl, ?_, ?_⟩
  · exact ((builtin_templates_immutable.1 (initializeBuiltInTemplates 0)
      "general-note" { name := some "renamed" } 9 _ rfl rfl)).1
  · exact ((builtin_templates_immutable.1 (initializeBuiltInTemplates 0)
      "general-note" { name := some "renamed" } 9 _ rfl rfl)).2

/-! ### C8: Han ratio above 10% decides `zh` before stopword scoring -/

/-- C8: whenever the normalized text has strictly more than 10% Han
characters, `detectLanguage` answers `zh`, for every input — in particular
independently of any stopword content. -/
theorem detectLanguage_zh (content : String)
    (h : 10 * ((normalizeText content).filter isHan).length >
      (normalizeText content).length) :
    detectLanguage content = "zh" := by
  unfold detectLanguage
  simp only []
  rw [if_pos h]

/-- Witness for C8 on a concrete Chinese document containing the English
stopwords `the` and `is` below the scoring threshold. -/
theorem detectLanguage_zh_witness :
    10 * ((normalizeText "这是中文测试 the is").filter isHan).length >
      (normalizeText "这是中文测试 the is").length ∧
    detectLanguage "这是中文测试 the is" = "zh" :=
  ⟨by decide, detectLanguage_zh "这是中文测试 the is" (by decide)⟩

/-! ### C2: front-matter recognition -/

/-- `findSub` finds exactly the least index where the pattern matches. -/
theorem findSub_eq_some_iff (pat l : List Char) (n : Nat) :
    findSub pat l = some n ↔
      (pat.isPrefixOf (l.drop n) = true ∧
       ∀ m, m < n → pat.isPrefixOf (l.drop m) = false) := by
  induction l generalizing n with
  | nil =>
    simp only [findSub, List.drop_nil]
    by_cases hp : pat.isEmpty
    · rw [if_pos hp]
      have hpe : pat = [] := by
        cases pat with
        | nil => rfl
        | cons a t => simp [List.isEmpty] at hp
      subst hpe
      constructor
      · intro h
        injection h with h1
        subst h1
        exact ⟨rfl, by omega⟩
      · rintro ⟨-, h2⟩
        cases n with
        | zero => rfl
        | succ k =>
          have := h2 0 (by omega)
          simp [List.isPrefixOf] at this
    · rw [if_neg hp]
      constructor
      · intro h
        exact Option.noConfusion h
      · rintro ⟨h1, -⟩
        exfalso
        cases pat with
        | nil => simp [List.isEmpty] at hp
        | cons a t => simp [List.isPrefixOf] at h1
  | cons c rest ih =>
    simp only [findSub]
    cases hpre : pat.isPrefixOf (c :: rest) with
    | true =>
      rw [if_pos rfl]
      constructor
      · intro h
        injection h with h1
        subst h1
        rw [List.drop_zero]
        exact ⟨hpre, by omega⟩
      · rintro ⟨-, h2⟩
        cases n with
        | zero => rfl
        | succ k =>
          have h0 := h2 0 (by omega)
          rw [List.drop_zero] at h0
          rw [h0] at hpre
          cases hpre
    | false =>
      rw [if_neg (by simp)]
      cases n with
      | zero =>
        constructor
        · intro h
          rcases Option.map_eq_some'.mp h with ⟨m, -, hmk⟩
          exact absurd hmk (by omega)
        · rintro ⟨h1, -⟩
          rw [List.drop_zero] at h1
          rw [h1] at hpre
          cases hpre
      | succ k =>
        constructor
        · intro h
          rcases Option.map_eq_some'.mp h with ⟨m, hm, hmk⟩
          rw [show m = k from by omega] at hm
          obtain ⟨h1, h2⟩ := (ih k).mp hm
          constructor
          · rw [List.drop_succ_cons]
            exact h1
          · intro m hmlt
            cases m with
            | zero =>
              rw [List.drop_zero]
              exact hpre
            | succ j =>
              rw [List.drop_succ_cons]
              exact h2 j (by omega)
        · rintro ⟨h1, h2⟩
          rw [Option.map_eq_some']
          rw [List.drop_succ_cons] at h1
          refine ⟨k, (ih k).mpr ⟨h1, ?_⟩, rfl⟩
          intro j hj
          have := h2 (j + 1) (by omega)
          rw [List.drop_succ_cons] at this
          exact this

/-- `findSub` succeeds exactly when the pattern occurs somewhere. -/
theorem findSub_isSome_iff (pat l : List Char) :
    (findSub pat l).isSome = true ↔ ∃ m, pat.isPrefixOf (l.drop m) = true := by
  constructor
  · intro h
    rcases Option.isSome_iff_exists.mp h with ⟨n, hn⟩
    obtain ⟨h1, -⟩ := (findSub_eq_some_iff pat l n).mp hn
    exact ⟨n, h1⟩
  · intro hex
    have hn := Nat.find_spec hex
    have hmin : ∀ m, m < Nat.find hex → pat.isPrefixOf (l.drop m) = false := by
      intro m hm
      have hnot := Nat.find_min hex hm
      cases hb : pat.isPrefixOf (l.drop m) with
      | false => rfl
      | true => exact absurd hb hnot
    rw [(findSub_eq_some_iff pat l (Nat.find hex)).mpr ⟨hn, hmin⟩]
    rfl

/-- `---` occurs (as a raw 3-character substring, wherever it is on a line)
at index `i` of the document. -/
def dashesAt (content : String) (i : Nat) : Prop :=
  ("---".data).isPrefixOf (content.data.drop i) = true

instance (content : String) (i : Nat) : Decidable (dashesAt content i) := by
  unfold dashesAt
  infer_instance

/-- Modelled from the spec: the spec\'s front-matter wire format — a line
containing exactly `---` at the start of the document and a later line
containing exactly `---` (the recognition condition C2 ascribes to the
code). -/
def specFrontMatterDelimited (content : String) : Prop :=
  (splitNl content.data).head? = some ("---".data) ∧
  ("---".data) ∈ (splitNl content.data).tail

instance (content : String) : Decidable (specFrontMatterDelimited content) := by
  unfold specFrontMatterDelimited
  exact instDecidableAnd

/-- C2 counterexample: in `"---\nkey: a---b\nrest"` no line other than the
first consists of `---`, yet the code treats the `---` inside the value
`a---b` as the closing delimiter: it reads `key: a` as the existing
metadata and drops `b` from the extracted body. -/
theorem frontMatter_recognition_counterexample :
    extractExistingMetadata "---\nkey: a---b\nrest" = some "key: a" ∧
    extractDocumentContent "---\nkey: a---b\nrest" = "rest" ∧
    ¬ specFrontMatterDelimited "---\nkey: a---b\nrest" := by
  refine ⟨by decide, by decide, by decide⟩

/-- C2 (amended): the extraction/insertion functions recognize existing
front matter exactly when the document starts with the three characters
`---` and the substring `---` occurs again anywhere at an index `≥ 3` —
alone on a line or not; the text strictly between index 4 and the first
such occurrence `e` is what is read and merged, and the rewritten body
resumes at index `e + 4`. -/
theorem frontMatter_recognition (content : String) :
    ((extractExistingMetadata content).isSome = true ↔
      jsStartsWith content "---" = true ∧ ∃ i, 3 ≤ i ∧ dashesAt content i) ∧
    (∀ e, jsStartsWith content "---" = true → 3 ≤ e → dashesAt content e →
      (∀ i, i < e → 3 ≤ i → ¬ dashesAt content i) →
      extractExistingMetadata content = some (jsTrim (jsSubstring content 4 e)) ∧
      extractDocumentContent content = jsTrim (jsSubstringFrom content (e + 4)) ∧
      ∀ metadata, insertMetadata content metadata false =
        "---\n" ++ mergeMetadata (jsSubstring content 4 e) metadata ++ "\n---\n" ++
          jsSubstringFrom content (e + 4)) := by
  constructor
  · unfold extractExistingMetadata
    by_cases hs : jsStartsWith content "---" = true
    · rw [if_pos hs]
      constructor
      · intro h
        refine ⟨hs, ?_⟩
        rcases hidx : jsIndexOfFrom content "---" 3 with - | e
        · rw [hidx] at h
          simp at h
        · unfold jsIndexOfFrom at hidx
          rcases Option.map_eq_some'.mp hidx with ⟨n, hn, hne⟩
          obtain ⟨h1, -⟩ := (findSub_eq_some_iff _ _ n).mp hn
          rw [List.drop_drop] at h1
          exact ⟨3 + n, by omega, h1⟩
      · rintro ⟨-, i, hi3, hdash⟩
        have hex : ∃ m, ("---".data).isPrefixOf ((content.data.drop 3).drop m) = true := by
          refine ⟨i - 3, ?_⟩
          rw [List.drop_drop]
          have h33 : 3 + (i - 3) = i := by omega
          rw [h33]
          exact hdash
        have hsome := (findSub_isSome_iff ("---".data) (content.data.drop 3)).mpr hex
        rcases hfs : findSub ("---".data) (content.data.drop 3) with - | n
        · rw [hfs] at hsome
          exact absurd hsome (by simp)
        · have hidx : jsIndexOfFrom content "---" 3 = some (n + 3) := by
            unfold jsIndexOfFrom
            rw [hfs]
            rfl
          rw [hidx]
          rfl
    · rw [if_neg hs]
      constructor
      · intro h
        exact absurd h (by simp)
      · rintro ⟨hc, -⟩
        exact absurd hc hs
  · intro e hs he3 hdash hleast
    have hfs : findSub ("---".data) (content.data.drop 3) = some (e - 3) := by
      rw [findSub_eq_some_iff]
      constructor
      · rw [List.drop_drop]
        have h33 : 3 + (e - 3) = e := by omega
        rw [h33]
        exact hdash
      · intro m hm
        rw [List.drop_drop]
        have hlt : 3 + m < e := by omega
        have hni := hleast (3 + m) hlt (by omega)
        unfold dashesAt at hni
        cases hb : ("---".data).isPrefixOf (content.data.drop (3 + m)) with
        | false => rfl
        | true => exact absurd hb hni
    have hidx : jsIndexOfFrom content "---" 3 = some e := by
      unfold jsIndexOfFrom
      rw [hfs]
      simp only [Option.map_some']
      congr 1
      omega
    refine ⟨?_, ?_, ?_⟩
    · unfold extractExistingMetadata
      rw [if_pos hs, hidx]
    · unfold extractDocumentContent
      rw [if_pos hs, hidx]
    · intro metadata
      unfold insertMetadata
      rw [if_pos hs, hidx]
      rfl

/-- Witness for C2's amended theorem on a well-formed document, at the least
occurrence `e = 13`. -/
theorem frontMatter_recognition_witness :
    (jsStartsWith "---\ntitle: x\n---\nbody" "---" = true ∧
      3 ≤ 13 ∧ dashesAt "---\ntitle: x\n---\nbody" 13) ∧
    extractExistingMetadata "---\ntitle: x\n---\nbody" = some "title: x" ∧
    extractDocumentContent "---\ntitle: x\n---\nbody" = "body" :=
  ⟨⟨by decide, by decide, by decide⟩,
   by
    have h := (frontMatter_recognition "---\ntitle: x\n---\nbody").2 13
      (by decide) (by decide) (by decide) (by decide)
    exact h.1.trans (by decide),
   by
    have h := (frontMatter_recognition "---\ntitle: x\n---\nbody").2 13
      (by decide) (by decide) (by decide) (by decide)
    exact h.2.1.trans (by decide)⟩

/-! ### C3: merge semantics -/

theorem mergeFold1 (lines : List (List Char)) (a b : List (List Char)) :
    lines.foldl (fun (acc : List (List Char) × List (List Char)) line =>
      match lineKey line with
      | some k => (acc.1 ++ [line], acc.2 ++ [k])
      | none => (acc.1 ++ [line], acc.2)) (a, b) =
    (a ++ lines, b ++ lines.filterMap lineKey) := by
  induction lines generalizing a b with
  | nil => simp
  | cons l rest ih =>
    simp only [List.foldl_cons, List.filterMap_cons]
    cases hk : lineKey l with
    | none =>
      rw [ih]
      simp
    | some k =>
      rw [ih]
      simp

theorem mergeFold2 (lines keys acc : List (List Char)) :
    lines.foldl (fun acc line =>
      match lineKey line with
      | some k => if k ∈ keys then acc else acc ++ [line]
      | none => acc ++ [line]) acc =
    acc ++ lines.filter (fun line =>
      match lineKey line with
      | some k => !decide (k ∈ keys)
      | none => true) := by
  induction lines generalizing acc with
  | nil => simp
  | cons l rest ih =>
    simp only [List.foldl_cons, List.filter_cons]
    cases hk : lineKey l with
    | none =>
      rw [ih]
      simp
    | some k =>
      by_cases hmem : k ∈ keys
      · rw [ih]
        simp [hmem]
      · rw [ih]
        simp [hmem]

/-- C3: merging front matter.  The concrete spec example, plus the general
shape of `mergeMetadata`: all non-blank new lines in order, followed by
exactly those non-blank old lines whose key (text before the first `:`)
does not occur among the new lines' keys (keyless old lines are always
kept). -/
theorem insertMetadata_merge_example :
    insertMetadata "---\ncreated: 2023-01-01\ntags: [a]\n---\nbody"
        "tags: [b]\ntitle: \"x\"" false =
      "---\ntags: [b]\ntitle: \"x\"\ncreated: 2023-01-01\n---\nbody" ∧
    (∀ existing newMetadata : String,
      mergeMetadata existing newMetadata =
        ⟨joinNl (((splitNl newMetadata.data).filter (fun l => trimChars l ≠ [])) ++
          ((splitNl existing.data).filter (fun l => trimChars l ≠ [])).filter
            (fun line => match lineKey line with
              | some k => !decide (k ∈ ((splitNl newMetadata.data).filter
                  (fun l => trimChars l ≠ [])).filterMap lineKey)
              | none => true))⟩) := by
  constructor
  · decide
  · intro existing newMetadata
    unfold mergeMetadata
    simp only []
    rw [mergeFold1, mergeFold2]
    simp

/-! ### C5: formatter idempotence -/

instance {e a : Type} [DecidableEq e] [DecidableEq a] : DecidableEq (Except e a) :=
  fun x y =>
    match x, y with
    | .ok u, .ok v =>
      if h : u = v then isTrue (by rw [h])
      else isFalse (by intro hc; injection hc; contradiction)
    | .error u, .error v =>
      if h : u = v then isTrue (by rw [h])
      else isFalse (by intro hc; injection hc; contradiction)
    | .ok _, .error _ => isFalse (fun hc => Except.noConfusion hc)
    | .error _, .ok _ => isFalse (fun hc => Except.noConfusion hc)

/-- C5 counterexample: `"---\n---\nkey: value"` formats to
`"---\nkey: value"`, which is itself the output of a formatting pass, yet
formatting it again strips another leading `---` line — so
`format (format x) ≠ format x`. -/
theorem format_not_idempotent :
    validateAndFormatMetadata "2026-10-11" "---\n---\nkey: value" "" =
      .ok "---\nkey: value" ∧
    validateAndFormatMetadata "2026-10-11" "---\nkey: value" "" =
      .ok "key: value" ∧
    ("---\nkey: value" : String) ≠ "key: value" := by
  refine ⟨by decide, by decide, by decide⟩

/-- C5 (amended): the pipeline is idempotent on every formatted output that
is fence-free, does not itself begin with a `---` line or end with a
` ``` ` fence, still has a non-blank line, and on which date substitution
and the tag/title normalizers act as the identity (already-clean YAML with
hyphenated tags).  An output of a previous pass can begin with `---` and
then violates this, as the counterexample shows. -/
theorem format_idempotent_on_clean (currentDate x y tpl tpl' : String)
    (hfmt : validateAndFormatMetadata currentDate x tpl = .ok y)
    (h1 : ("```yaml\n".data).isPrefixOf y.data = false)
    (h2 : ("```\n".data).isPrefixOf y.data = false)
    (h3 : ("---\n".data).isPrefixOf y.data = false)
    (h4 : ("\n```".data).isSuffixOf y.data = false)
    (h5 : (splitNl y.data).filter (fun l => trimChars l ≠ []) ≠ [])
    (h6 : replaceAll ("\x7b\x7bdate\x7d\x7d".data) currentDate.data y.data = y.data)
    (h7 : formatTagsForObsidian y = y)
    (h8 : formatTitleForObsidian y = y) :
    validateAndFormatMetadata currentDate y tpl' = .ok y := by
  unfold validateAndFormatMetadata
  simp only []
  rw [stripLeadIf_of_neg h1, stripTrailIf_of_neg h4, stripLeadIf_of_neg h2,
    stripTrailIf_of_neg h4, stripLeadIf_of_neg h3]
  rw [if_neg h5]
  rw [h6, strMk_data, h7, strMk_data, h8]

/-- Witness for C5's amended theorem: a clean one-line tag block is a fixed
point of the whole pipeline. -/
theorem format_idempotent_on_clean_witness :
    validateAndFormatMetadata "2026-10-11" "tags: [\"ai\"]" "t" =
      .ok "tags: [\"ai\"]" ∧
    validateAndFormatMetadata "2026-10-11" "tags: [\"ai\"]" "t2" =
      .ok "tags: [\"ai\"]" :=
  ⟨by decide,
   format_idempotent_on_clean "2026-10-11" "tags: [\"ai\"]" "tags: [\"ai\"]"
     "t" "t2" (by decide) (by decide) (by decide) (by decide) (by decide)
     (by decide) (by decide) (by decide) (by decide)⟩

/-! ### C6: batch failure isolation -/

/-- Does `batchGenerate`'s per-file body throw for this file (empty document
or failed/metadata-less response)? -/
def docFails (gen : MetadataGenerationRequest → MetadataGenerationResponse)
    (template : MetadataTemplate) (file : BatchFile) : Bool :=
  decide (jsTrim (extractDocumentContent file.content) = "") ||
  !((gen { documentContent := extractDocumentContent file.content,
           fileName := file.name, template := template }).success &&
    jsTruthyStr (gen { documentContent := extractDocumentContent file.content,
                       fileName := file.name, template := template }).metadata)

/-- The error-list entry recorded for a failing file. -/
def docErrMsg (gen : MetadataGenerationRequest → MetadataGenerationResponse)
    (template : MetadataTemplate) (file : BatchFile) : String :=
  if jsTrim (extractDocumentContent file.content) = "" then
    file.name ++ ": Document content is empty"
  else
    file.name ++ ": " ++
      jsOrStr (gen { documentContent := extractDocumentContent file.content,
                     fileName := file.name, template := template }).error
        "Generation failed"

/-- Folding chunk-by-chunk equals folding over the whole list: the
`maxConcurrent` batching only groups the work. -/
theorem chunkList_foldl {α σ : Type} (k : Nat) (hk : 0 < k) (f : σ → α → σ) :
    ∀ (n : Nat) (l : List α), l.length ≤ n → ∀ (a : σ),
      (chunkList k l).foldl (fun acc batch => batch.foldl f acc) a =
        l.foldl f a := by
  intro n
  induction n with
  | zero =>
    intro l hl a
    have hnil : l = [] := List.eq_nil_of_length_eq_zero (by omega)
    subst hnil
    rw [chunkList.eq_def]
    simp
  | succ m ih =>
    intro l hl a
    cases l with
    | nil =>
      rw [chunkList.eq_def]
      simp
    | cons c rest =>
      rw [chunkList.eq_def]
      simp only []
      rw [dif_neg (by omega : ¬ k = 0)]
      simp only [List.foldl_cons]
      rw [ih ((c :: rest).drop k) (by simp only [List.length_drop]; simp at hl ⊢; omega)]
      rw [← List.foldl_append, List.take_append_drop]
      rw [List.foldl_cons]

/-- Per-file step: every file bumps exactly one counter and contributes its
error entry exactly when it fails. -/
theorem processOneFile_spec (gen : MetadataGenerationRequest → MetadataGenerationResponse)
    (template : MetadataTemplate) (now : Nat)
    (acc : BatchResults × UsageStats) (file : BatchFile) :
    ((processOneFile gen template now acc file).1.success +
        (processOneFile gen template now acc file).1.failed =
      acc.1.success + acc.1.failed + 1) ∧
    ((processOneFile gen template now acc file).1.failed =
      acc.1.failed + (if docFails gen template file = true then 1 else 0)) ∧
    ((processOneFile gen template now acc file).1.errors =
      acc.1.errors ++
        (if docFails gen template file = true then [docErrMsg gen template file] else [])) := by
  by_cases hempty : jsTrim (extractDocumentContent file.content) = ""
  · have hfails : docFails gen template file = true := by
      unfold docFails
      simp [hempty]
    have hmsg : docErrMsg gen template file = file.name ++ ": Document content is empty" := by
      unfold docErrMsg
      rw [if_pos hempty]
    unfold processOneFile
    simp only []
    rw [if_pos hempty, hfails, hmsg]
    refine ⟨by simp; omega, by simp, by simp⟩
  · by_cases hok : ((gen { documentContent := extractDocumentContent file.content, fileName := file.name, template := template }).success && jsTruthyStr (gen { documentContent := extractDocumentContent file.content, fileName := file.name, template := template }).metadata) = true
    · have hfails : docFails gen template file = false := by
        unfold docFails
        simp [hempty, hok]
      unfold processOneFile
      simp only []
      rw [if_neg hempty, if_pos hok, hfails]
      refine ⟨by simp; omega, by simp, by simp⟩
    · have hfails : docFails gen template file = true := by
        unfold docFails
        cases hA : ((gen { documentContent := extractDocumentContent file.content, fileName := file.name, template := template }).success && jsTruthyStr (gen { documentContent := extractDocumentContent file.content, fileName := file.name, template := template }).metadata) with
        | true => exact absurd hA hok
        | false => simp
      have hmsg : docErrMsg gen template file = file.name ++ ": " ++ jsOrStr (gen { documentContent := extractDocumentContent file.content, fileName := file.name, template := template }).error "Generation failed" := by
        unfold docErrMsg
        rw [if_neg hempty]
      unfold processOneFile
      simp only []
      rw [if_neg hempty, if_neg hok, hfails, hmsg]
      refine ⟨by simp; omega, by simp, by simp⟩

/-- Fold invariant for the per-file body: every file bumps exactly one of
the counters, and the error list collects exactly the failing files\'
messages in order. -/
theorem batch_foldl_spec (gen : MetadataGenerationRequest → MetadataGenerationResponse)
    (template : MetadataTemplate) (now : Nat) :
    ∀ (files : List BatchFile) (acc : BatchResults × UsageStats),
      ((files.foldl (processOneFile gen template now) acc).1.success +
          (files.foldl (processOneFile gen template now) acc).1.failed =
        acc.1.success + acc.1.failed + files.length) ∧
      ((files.foldl (processOneFile gen template now) acc).1.failed =
        acc.1.failed + (files.filter (docFails gen template)).length) ∧
      ((files.foldl (processOneFile gen template now) acc).1.errors =
        acc.1.errors ++
          (files.filter (docFails gen template)).map (docErrMsg gen template)) := by
  intro files
  induction files with
  | nil =>
    intro acc
    simp
  | cons file rest ih =>
    intro acc
    simp only [List.foldl_cons, List.filter_cons, List.length_cons]
    obtain ⟨s1, s2, s3⟩ := processOneFile_spec gen template now acc file
    obtain ⟨ih1, ih2, ih3⟩ := ih (processOneFile gen template now acc file)
    by_cases hf : docFails gen template file = true
    · rw [if_pos hf] at s2 s3 ⊢
      refine ⟨by omega, ?_, ?_⟩
      · rw [ih2, s2]
        simp only [List.length_cons]
        omega
      · rw [ih3, s3, List.map_cons]
        simp [List.append_assoc]
    · rw [if_neg hf] at s2 s3 ⊢
      refine ⟨by omega, ?_, ?_⟩
      · rw [ih2, s2]
        omega
      · rw [ih3, s3]
        simp

/-- C6: with an existing template and a positive window size,
`batchGenerate` completes the whole list, each per-file failure is caught
and recorded as exactly one `` `${file.name}: ${message}` `` entry without
affecting any other document, and `success + failed` equals the number of
documents. -/
theorem batchGenerate_isolates
    (getTemplate : String → Option MetadataTemplate)
    (gen : MetadataGenerationRequest → MetadataGenerationResponse)
    (files : List BatchFile) (templateId : String) (template : MetadataTemplate)
    (maxConcurrent now : Nat) (stats0 : UsageStats)
    (htpl : getTemplate templateId = some template) (hk : 0 < maxConcurrent) :
    ∃ results stats,
      batchGenerate getTemplate gen files templateId maxConcurrent now stats0 =
        .ok (results, stats) ∧
      results.success + results.failed = files.length ∧
      results.failed = (files.filter (docFails gen template)).length ∧
      results.errors =
        (files.filter (docFails gen template)).map (docErrMsg gen template) := by
  unfold batchGenerate
  rw [htpl]
  simp only []
  rw [chunkList_foldl maxConcurrent hk (processOneFile gen template now)
    files.length files (le_refl _)]
  obtain ⟨h1, h2, h3⟩ := batch_foldl_spec gen template now files
    ({ success := 0, failed := 0, errors := [] }, stats0)
  exact ⟨_, _, rfl, by simpa using h1, by simpa using h2, by simpa using h3⟩

/-- Concrete batch scenario for the C6 witness: five documents, window of
two, the third configured to fail. -/
def batch5Files : List BatchFile :=
  [⟨"doc1.md", "alpha one"⟩, ⟨"doc2.md", "beta two"⟩, ⟨"doc3.md", "gamma three"⟩,
   ⟨"doc4.md", "delta four"⟩, ⟨"doc5.md", "epsilon five"⟩]

def batch5Gen : MetadataGenerationRequest → MetadataGenerationResponse :=
  fun r =>
    if r.fileName = "doc3.md" then
      { success := false, error := some "API request timeout", processingTime := some 5 }
    else
      { success := true, metadata := some "title: \"t\"", tokensUsed := some 10,
        processingTime := some 5 }

def batch5GetTemplate : String → Option MetadataTemplate :=
  fun id => if id = "general-note" then some sampleTemplate else none

/-- Witness for C6: 5 documents, `maxConcurrent = 2`, one failure →
`success = 4`, `failed = 1`, and exactly one error entry naming `doc3.md`. -/
theorem batchGenerate_isolates_witness :
    ∃ results stats,
      batchGenerate batch5GetTemplate batch5Gen batch5Files "general-note" 2 0
        (initialUsageStats 0) = .ok (results, stats) ∧
      results.success + results.failed = 5 ∧ results.failed = 1 ∧
      results.errors = ["doc3.md: API request timeout"] := by
  obtain ⟨r, s, hok, h1, h2, h3⟩ := batchGenerate_isolates batch5GetTemplate
    batch5Gen batch5Files "general-note" sampleTemplate 2 0 (initialUsageStats 0)
    (by decide) (by decide)
  refine ⟨r, s, hok, by simpa using h1, ?_, ?_⟩
  · rw [h2]
    decide
  · rw [h3]
    decide

/-! ### C9: single-tag normalization -/

theorem toNat_ofNat_of_lt (n : Nat) (h : n < 0xd800) : (Char.ofNat n).toNat = n := by
  have hv : n.isValidChar := Or.inl h
  unfold Char.ofNat
  rw [dif_pos hv]
  unfold Char.ofNatAux
  simp [Char.toNat, UInt32.toNat, UInt32.ofNat']

set_option maxHeartbeats 1000000 in
/-- `toLowerCase` never produces an ASCII uppercase letter. -/
theorem jsToLowerChar_not_upper (d : Char) :
    ¬(0x41 ≤ (jsToLowerChar d).toNat ∧ (jsToLowerChar d).toNat ≤ 0x5a) := by
  unfold jsToLowerChar
  simp only []
  split_ifs with h1 h2 h3 h4 h5 h6 h7 h8 h9 h10
  · simp only [Bool.and_eq_true, decide_eq_true_eq] at h1
    rw [toNat_ofNat_of_lt (d.toNat + 0x20) (by omega)]
    omega
  · simp only [Bool.and_eq_true, decide_eq_true_eq] at h2
    rw [toNat_ofNat_of_lt (d.toNat + 0x20) (by omega)]
    omega
  · decide
  · simp only [Bool.and_eq_true, decide_eq_true_eq] at h4
    rw [toNat_ofNat_of_lt (d.toNat + 1) (by omega)]
    omega
  · simp only [Bool.and_eq_true, decide_eq_true_eq] at h5
    rw [toNat_ofNat_of_lt (d.toNat + 1) (by omega)]
    omega
  · simp only [Bool.and_eq_true, decide_eq_true_eq] at h6
    rw [toNat_ofNat_of_lt (d.toNat + 1) (by omega)]
    omega
  · rw [toNat_ofNat_of_lt 0xff (by omega)]
    omega
  · simp only [Bool.and_eq_true, decide_eq_true_eq] at h8
    rw [toNat_ofNat_of_lt (d.toNat + 1) (by omega)]
    omega
  · simp only [Bool.and_eq_true, decide_eq_true_eq] at h9
    rw [toNat_ofNat_of_lt (d.toNat + 0x20) (by omega)]
    omega
  · simp only [Bool.and_eq_true, decide_eq_true_eq] at h10
    rw [toNat_ofNat_of_lt (d.toNat + 0x50) (by omega)]
    omega
  · intro hcon
    exact h1 (by simp only [Bool.and_eq_true, decide_eq_true_eq]; exact ⟨hcon.1, hcon.2⟩)

theorem replaceRunsGo_mem (p : Char → Bool) (r : Char) :
    ∀ (fuel : Nat) (l : List Char) (c : Char), l.length < fuel →
      c ∈ replaceRunsGo p r fuel l → c = r ∨ (c ∈ l ∧ p c = false) := by
  intro fuel
  induction fuel with
  | zero =>
    intro l c hlen hmem
    exact absurd hlen (by omega)
  | succ n ih =>
    intro l c hlen hmem
    cases l with
    | nil => simp [replaceRunsGo] at hmem
    | cons d rest =>
      rw [replaceRunsGo] at hmem
      by_cases hd : p d = true
      · rw [if_pos hd] at hmem
        rcases List.mem_cons.mp hmem with hc | hc
        · left
          exact hc
        · have hlen' : (rest.dropWhile p).length < n := by
            have := (List.dropWhile_sublist (l := rest) p).length_le
            simp only [List.length_cons] at hlen
            omega
          rcases ih (rest.dropWhile p) c hlen' hc with h1 | ⟨h2, h3⟩
          · left
            exact h1
          · right
            exact ⟨List.mem_cons_of_mem d ((List.dropWhile_sublist p).subset h2), h3⟩
      · rw [if_neg hd] at hmem
        rcases List.mem_cons.mp hmem with hc | hc
        · subst hc
          right
          refine ⟨List.mem_cons_self _ _, ?_⟩
          cases hq : p c with
          | false => rfl
          | true => exact absurd hq hd
        · have hlen' : rest.length < n := by
            simp only [List.length_cons] at hlen
            omega
          rcases ih rest c hlen' hc with h1 | ⟨h2, h3⟩
          · left
            exact h1
          · right
            exact ⟨List.mem_cons_of_mem d h2, h3⟩

theorem replaceRuns_mem (p : Char → Bool) (r : Char) (l : List Char) (c : Char)
    (h : c ∈ replaceRuns p r l) : c = r ∨ (c ∈ l ∧ p c = false) :=
  replaceRunsGo_mem p r (l.length + 1) l c (by omega) h

theorem head_dropWhile_not (p : Char → Bool) (l : List Char) (d : Char)
    (h : (l.dropWhile p).head? = some d) : p d = false := by
  induction l with
  | nil => simp [List.dropWhile] at h
  | cons c rest ih =>
    rw [List.dropWhile_cons] at h
    by_cases hc : p c = true
    · rw [if_pos hc] at h
      exact ih h
    · rw [if_neg hc] at h
      simp only [List.head?_cons, Option.some.injEq] at h
      subst h
      cases hq : p c with
      | false => rfl
      | true => exact absurd hq hc

/-- The hyphen-collapse pass leaves no two adjacent hyphens. -/
theorem replaceRunsGo_chain :
    ∀ (fuel : Nat) (l : List Char), l.length < fuel →
      List.Chain' (fun a b => ¬(a = '-' ∧ b = '-'))
        (replaceRunsGo (fun c => c = '-') '-' fuel l) := by
  intro fuel
  induction fuel with
  | zero =>
    intro l hlen
    exact absurd hlen (by omega)
  | succ n ih =>
    intro l hlen
    cases l with
    | nil => simp [replaceRunsGo]
    | cons d rest =>
      rw [replaceRunsGo]
      by_cases hd : (fun c => decide (c = '-')) d = true
      · rw [if_pos hd]
        have hlen' : (rest.dropWhile (fun c => decide (c = '-'))).length < n := by
          have := (List.dropWhile_sublist (l := rest)
            (fun c => decide (c = '-'))).length_le
          simp only [List.length_cons] at hlen
          omega
        rw [List.chain'_cons']
        refine ⟨?_, ih _ hlen'⟩
        intro b hb
        cases n with
        | zero => exact absurd hlen' (by omega)
        | succ m =>
          cases hdw : rest.dropWhile (fun c => decide (c = '-')) with
          | nil =>
            rw [hdw] at hb
            simp [replaceRunsGo] at hb
          | cons e tail =>
            have he : decide (e = '-') = false := by
              have := head_dropWhile_not (fun c => decide (c = '-')) rest e
                (by rw [hdw]; rfl)
              simpa using this
            rw [hdw, replaceRunsGo, if_neg (by simp [he])] at hb
            simp only [List.head?_cons, Option.mem_def, Option.some.injEq] at hb
            subst hb
            intro hcon
            simp only [decide_eq_false_iff_not] at he
            exact he hcon.2
      · rw [if_neg hd]
        have hlen' : rest.length < n := by
          simp only [List.length_cons] at hlen
          omega
        rw [List.chain'_cons']
        refine ⟨?_, ih _ hlen'⟩
        intro b hb
        intro hcon
        simp only [decide_eq_true_eq] at hd
        exact hd hcon.1

theorem replaceRuns_chain (l : List Char) :
    List.Chain' (fun a b => ¬(a = '-' ∧ b = '-'))
      (replaceRuns (fun c => c = '-') '-' l) :=
  replaceRunsGo_chain (l.length + 1) l (by omega)

theorem stripEdgeHyphens_sublist (l : List Char) :
    List.Sublist (stripEdgeHyphens l) l := by
  unfold stripEdgeHyphens
  simp only []
  by_cases h0 : l.head? = some '-'
  · rw [if_pos h0]
    by_cases h1 : l.tail.getLast? = some '-'
    · rw [if_pos h1]
      exact (List.dropLast_sublist _).trans (List.tail_sublist l)
    · rw [if_neg h1]
      exact List.tail_sublist l
  · rw [if_neg h0]
    by_cases h1 : l.getLast? = some '-'
    · rw [if_pos h1]
      exact List.dropLast_sublist l
    · rw [if_neg h1]

/-- Only the second step of `stripEdgeHyphens`: trimming one trailing hyphen
from a no-double-hyphen list with a non-hyphen head keeps all four shape
properties. -/
theorem stripTrailStage (l1 : List Char)
    (hch1 : List.Chain' (fun a b => ¬(a = '-' ∧ b = '-')) l1)
    (hhead1 : l1.head? ≠ some '-') :
    List.Chain' (fun a b => ¬(a = '-' ∧ b = '-'))
      (if l1.getLast? = some '-' then l1.dropLast else l1) ∧
    (if l1.getLast? = some '-' then l1.dropLast else l1).head? ≠ some '-' ∧
    (if l1.getLast? = some '-' then l1.dropLast else l1).getLast? ≠ some '-' := by
  by_cases h1 : l1.getLast? = some '-'
  · rw [if_pos h1]
    have hne : l1 ≠ [] := by
      intro he
      rw [he] at h1
      simp at h1
    have hsplit := List.dropLast_append_getLast hne
    have hch2 : List.Chain' (fun a b => ¬(a = '-' ∧ b = '-'))
        (l1.dropLast ++ [l1.getLast hne]) := by
      rw [hsplit]
      exact hch1
    rw [List.chain'_append] at hch2
    obtain ⟨hd, -, h3⟩ := hch2
    refine ⟨hd, ?_, ?_⟩
    · cases l1 with
      | nil => simp
      | cons a t =>
        cases t with
        | nil => simp
        | cons b t2 =>
          simpa using hhead1
    · intro hcon
      have hg : l1.getLast hne = '-' := by
        have hq := List.getLast?_eq_getLast l1 hne
        rw [hq] at h1
        exact Option.some.inj h1
      have := h3 '-' (by simp [hcon]) (l1.getLast hne) (by simp)
      rw [hg] at this
      exact this ⟨rfl, rfl⟩
  · rw [if_neg h1]
    exact ⟨hch1, hhead1, h1⟩

/-- `stripEdgeHyphens` on a no-double-hyphen list yields a list with no
double hyphen, no leading hyphen, and no trailing hyphen. -/
theorem stripEdgeHyphens_spec (l : List Char)
    (hch : List.Chain' (fun a b => ¬(a = '-' ∧ b = '-')) l) :
    List.Chain' (fun a b => ¬(a = '-' ∧ b = '-')) (stripEdgeHyphens l) ∧
    (stripEdgeHyphens l).head? ≠ some '-' ∧
    (stripEdgeHyphens l).getLast? ≠ some '-' := by
  unfold stripEdgeHyphens
  simp only []
  by_cases h0 : l.head? = some '-'
  · rw [if_pos h0]
    refine stripTrailStage l.tail hch.tail ?_
    cases l with
    | nil => simp at h0
    | cons c t =>
      simp only [List.head?_cons, Option.some.injEq] at h0
      subst h0
      rw [List.chain'_cons'] at hch
      intro hsome
      simp only [List.tail_cons] at hsome
      exact hch.1 '-' (by simp [Option.mem_def, hsome]) ⟨rfl, rfl⟩
  · rw [if_neg h0]
    exact stripTrailStage l hch h0

/-- Character-level facts for the non-CJK branch of `formatSingleTag`: no
whitespace, no underscore, no ASCII uppercase survives. -/
theorem englishTagChars (t : List Char) (c : Char)
    (hc : c ∈ stripEdgeHyphens (replaceRuns (fun c => c = '-') '-'
      ((replaceRuns (fun c => jsIsSpace c || c = '_') '-' (t.map jsToLowerChar)).map
        (fun c => if isWordChar c || c = '-' then c else '-')))) :
    jsIsSpace c = false ∧ c ≠ '_' ∧ ¬(0x41 ≤ c.toNat ∧ c.toNat ≤ 0x5a) := by
  have hc1 := (stripEdgeHyphens_sublist _).subset hc
  rcases replaceRuns_mem _ _ _ _ hc1 with hdash | ⟨hmem, -⟩
  · subst hdash
    refine ⟨by decide, by decide, by decide⟩
  · rcases List.mem_map.mp hmem with ⟨b, hb, hfb⟩
    by_cases hcond : (isWordChar b || b = '-') = true
    · rw [if_pos hcond] at hfb
      subst hfb
      rcases replaceRuns_mem _ _ _ _ hb with hdash | ⟨hbm, hbp⟩
      · subst hdash
        refine ⟨by decide, by decide, by decide⟩
      · have h1 : jsIsSpace b = false ∧ ¬(b = '_') := by
          simpa using hbp
        rcases List.mem_map.mp hbm with ⟨d, -, hd⟩
        subst hd
        exact ⟨h1.1, h1.2, jsToLowerChar_not_upper d⟩
    · rw [if_neg hcond] at hfb
      subst hfb
      refine ⟨by decide, by decide, by decide⟩

/-- C9: the two concrete normalizations of the spec, plus the general
shape: a CJK tag only loses characters (whitespace/underscores and
disallowed symbols; no case change), while a non-CJK tag contains no
whitespace, underscore or ASCII uppercase, has no two adjacent hyphens, and
neither starts nor ends with a hyphen. -/
theorem formatSingleTag_spec :
    formatSingleTag "Machine Learning" = "machine-learning" ∧
    formatSingleTag "机器 学习" = "机器学习" ∧
    (∀ tag : String, ((jsTrim tag).data.any isHan) = true →
      List.Sublist (formatSingleTag tag).data (jsTrim tag).data ∧
      ∀ c ∈ (formatSingleTag tag).data, jsIsSpace c = false ∧ c ≠ '_') ∧
    (∀ tag : String, ((jsTrim tag).data.any isHan) = false →
      (∀ c ∈ (formatSingleTag tag).data,
        jsIsSpace c = false ∧ c ≠ '_' ∧ ¬(0x41 ≤ c.toNat ∧ c.toNat ≤ 0x5a)) ∧
      List.Chain' (fun a b => ¬(a = '-' ∧ b = '-')) (formatSingleTag tag).data ∧
      (formatSingleTag tag).data.head? ≠ some '-' ∧
      (formatSingleTag tag).data.getLast? ≠ some '-') := by
  refine ⟨by decide, by decide, ?_, ?_⟩
  · intro tag hhan
    unfold formatSingleTag
    by_cases hemp : (decide (tag = "") || decide (jsTrim tag = "")) = true
    · rw [if_pos hemp]
      constructor
      · exact List.nil_sublist _
      · intro c hc
        simp at hc
    · rw [if_neg hemp]
      simp only []
      rw [if_pos hhan]
      constructor
      · exact (List.filter_sublist _).trans (List.filter_sublist _)
      · intro c hc
        have ha := List.mem_filter.mp hc
        have hb := List.mem_filter.mp ha.1
        have hq : (!(jsIsSpace c || c = '_')) = true := hb.2
        constructor
        · simp only [Bool.not_eq_true', Bool.or_eq_false_iff] at hq
          exact hq.1
        · simp only [Bool.not_eq_true', Bool.or_eq_false_iff,
            decide_eq_false_iff_not] at hq
          exact hq.2
  · intro tag hhan
    unfold formatSingleTag
    by_cases hemp : (decide (tag = "") || decide (jsTrim tag = "")) = true
    · rw [if_pos hemp]
      refine ⟨?_, ?_, ?_, ?_⟩ <;> simp
    · rw [if_neg hemp]
      simp only []
      rw [if_neg (by simp [hhan])]
      have hch := replaceRuns_chain
        ((replaceRuns (fun c => jsIsSpace c || c = '_')
          '-' ((jsTrim tag).data.map jsToLowerChar)).map
          (fun c => if isWordChar c || c = '-' then c else '-'))
      obtain ⟨hch', hhd, hlast⟩ := stripEdgeHyphens_spec _ hch
      exact ⟨fun c hc => englishTagChars _ c hc, hch', hhd, hlast⟩

/-- Witness for C9 at the concrete spec inputs. -/
theorem formatSingleTag_spec_witness :
    ((jsTrim "机器 学习").data.any isHan) = true ∧
    List.Sublist (formatSingleTag "机器 学习").data (jsTrim "机器 学习").data ∧
    ((jsTrim "Machine Learning").data.any isHan) = false ∧
    (formatSingleTag "Machine Learning").data.head? ≠ some '-' :=
  ⟨by decide, (formatSingleTag_spec.2.2.1 "机器 学习" (by decide)).1, by decide,
   (formatSingleTag_spec.2.2.2 "Machine Learning" (by decide)).2.2.1⟩

theorem getD_set_ne (l : List UsageStats) (i j : Nat) (v d : UsageStats)
    (h : i ≠ j) : (l.set i v).getD j d = l.getD j d := by
  simp [List.getD_eq_getElem?_getD, List.getElem?_set_ne h]

theorem getD_append_lt (l l2 : List UsageStats) (i : Nat) (d : UsageStats)
    (h : i < l.length) : (l ++ l2).getD i d = l.getD i d := by
  simp [List.getD_eq_getElem?_getD, List.getElem?_append, h]

/-- Writing through a foreign reference (`mutateRef ref`) any number of
times never moves the generator reference and never changes the record it
points to, as long as the two references differ. -/
theorem runOps_mutateRef_spec (ref : Nat) (vs : List UsageStats) :
    ∀ s : GenHeapState, s.cur ≠ ref →
      (runOps s (vs.map (StatsOp.mutateRef ref))).cur = s.cur ∧
      heapRead (runOps s (vs.map (StatsOp.mutateRef ref))) s.cur =
        heapRead s s.cur := by
  induction vs with
  | nil => intro s _; exact ⟨rfl, rfl⟩
  | cons v vs ih =>
    intro s hne
    obtain ⟨hc, hr⟩ := ih ({ s with heap := s.heap.set ref v }) hne
    have h2 : heapRead ({ s with heap := s.heap.set ref v } : GenHeapState) s.cur
        = heapRead s s.cur := getD_set_ne _ _ _ _ _ (fun he => hne he.symm)
    exact ⟨hc, hr.trans h2⟩

/-- The generator-side operations (`update`, `failIncr`, `reset`) preserve
the heap invariants and never touch a record the generator does not
currently reference. -/
theorem runOps_internal_spec (ref : Nat) (ops : List StatsOp) :
    ∀ s : GenHeapState, (∀ op ∈ ops, internalOp op) →
      ref < s.heap.length → s.cur < s.heap.length → s.cur ≠ ref →
      heapRead (runOps s ops) ref = heapRead s ref ∧
      ref < (runOps s ops).heap.length ∧
      (runOps s ops).cur < (runOps s ops).heap.length ∧
      (runOps s ops).cur ≠ ref := by
  induction ops with
  | nil => intro s _ h1 h2 h3; exact ⟨rfl, h1, h2, h3⟩
  | cons op ops ih =>
    intro s hint h1 h2 h3
    have hop : internalOp op := hint op (by simp)
    have hops : ∀ o ∈ ops, internalOp o := fun o ho => hint o (by simp [ho])
    have hkey : heapRead (stepOp s op) ref = heapRead s ref ∧
        ref < (stepOp s op).heap.length ∧
        (stepOp s op).cur < (stepOp s op).heap.length ∧
        (stepOp s op).cur ≠ ref := by
      cases op with
      | update r t now =>
        refine ⟨getD_set_ne _ _ _ _ _ h3, ?_, ?_, h3⟩
        · simpa [stepOp] using h1
        · simpa [stepOp] using h2
      | failIncr =>
        refine ⟨getD_set_ne _ _ _ _ _ h3, ?_, ?_, h3⟩
        · simpa [stepOp] using h1
        · simpa [stepOp] using h2
      | reset now =>
        refine ⟨?_, ?_, ?_, ?_⟩
        · exact getD_append_lt _ _ _ _ h1
        · simp only [stepOp, List.length_append, List.length_cons,
            List.length_nil]
          omega
        · simp only [stepOp, List.length_append, List.length_cons,
            List.length_nil]
          omega
        · simp only [stepOp]
          omega
      | mutateRef r v => exact absurd hop (by simp [internalOp])
    obtain ⟨hk1, hk2, hk3, hk4⟩ := hkey
    obtain ⟨hr, hb1, hb2, hb3⟩ := ih (stepOp s op) hops hk2 hk3 hk4
    exact ⟨by simpa [runOps] using hr.trans hk1, hb1, hb2, hb3⟩

/-- C10: `getUsageStats` returns a reference to a freshly allocated copy of
the internal record (distinct object, equal field values); writing through
that reference never changes the record the generator references; and any
sequence of generator-side operations (further requests, failure bumps,
resets) leaves the snapshot record unchanged. -/
theorem getUsageStats_snapshot (s : GenHeapState)
    (hcur : s.cur < s.heap.length) (ops : List StatsOp)
    (vs : List UsageStats) :
    (getUsageStats s).1 ≠ (getUsageStats s).2.cur ∧
    heapRead (getUsageStats s).2 (getUsageStats s).1 = heapRead s s.cur ∧
    heapRead (getUsageStats s).2 (getUsageStats s).2.cur = heapRead s s.cur ∧
    heapRead
      (runOps (getUsageStats s).2 (vs.map (StatsOp.mutateRef (getUsageStats s).1)))
      (getUsageStats s).2.cur = heapRead s s.cur ∧
    ((∀ op ∈ ops, internalOp op) →
      heapRead (runOps (getUsageStats s).2 ops) (getUsageStats s).1 =
        heapRead s s.cur) := by
  have hfst : (getUsageStats s).1 = s.heap.length := rfl
  have hsnd : (getUsageStats s).2 =
      { s with heap := s.heap ++ [heapRead s s.cur] } := rfl
  have hcursnd : (getUsageStats s).2.cur = s.cur := rfl
  have hcopy : heapRead (getUsageStats s).2 (getUsageStats s).1 =
      heapRead s s.cur := by
    rw [hfst, hsnd]
    simp [heapRead, List.getD_eq_getElem?_getD]
  have hintact : heapRead (getUsageStats s).2 (getUsageStats s).2.cur =
      heapRead s s.cur := by
    rw [hcursnd, hsnd]
    simp only [heapRead]
    exact getD_append_lt _ _ _ _ hcur
  refine ⟨?_, hcopy, hintact, ?_, ?_⟩
  · rw [hfst, hcursnd]
    omega
  · have h := runOps_mutateRef_spec (getUsageStats s).1 vs (getUsageStats s).2
      (by rw [hfst, hcursnd]; omega)
    rw [hcursnd] at h
    rw [hcursnd, h.2]
    exact hintact
  · intro hint
    have h := runOps_internal_spec (getUsageStats s).1 ops (getUsageStats s).2
      hint
      (by rw [hfst, hsnd]; simp)
      (by rw [hsnd]; simp only [List.length_append]; omega)
      (by rw [hfst, hcursnd]; omega)
    rw [h.1]
    exact hcopy

/-- Witness for C10 at a concrete state: one record, one snapshot, a caller
write through the snapshot plus a failure bump and a reset on the generator
side. -/
theorem getUsageStats_snapshot_witness :
    (0 : Nat) < 1 ∧
    heapRead
      (runOps (getUsageStats (⟨[initialUsageStats 0], 0⟩ : GenHeapState)).2
        [StatsOp.failIncr, StatsOp.reset 7])
      (getUsageStats (⟨[initialUsageStats 0], 0⟩ : GenHeapState)).1 =
      heapRead ⟨[initialUsageStats 0], 0⟩ 0 :=
  ⟨by decide,
   (getUsageStats_snapshot ⟨[initialUsageStats 0], 0⟩ (by decide)
      [StatsOp.failIncr, StatsOp.reset 7]
      [failBump (initialUsageStats 0)]).2.2.2.2 (by decide)⟩

end AutoMeta
